import Mathlib

/-!
# Credential-custody gateway (`server.js`)

A shallow embedding of the Express application in `server.js`: the two cipher
helpers `encrypt` / `decrypt`, the two Mongoose collections (`Key`, `Case`) and
the five route handlers.  Requests are served one after the other.

JavaScript strings are taken as well-formed Unicode text (`String`).  Every
request carries a `userId`; any other field may be missing, and a field that is
`undefined` or `null` is `none`.  What lies outside the process (the database
engine failing, the clock, the random bytes the cipher library draws, the
answers of the providers) is an explicit input of each handler (`World`).
A provider call of a handler is one call of an SDK method; what that one call
sends over the network, the retries of the SDK included, is modelled apart
(`OpenAI.makeRequest`, `PayPalHttpClient.execute`).

The first part models the algorithms of the `crypto-js` package that the two
helpers call (`CryptoJS.AES.encrypt(text, passphrase)`,
`CryptoJS.AES.decrypt(ciphertext, passphrase)`, `toString()`,
`toString(CryptoJS.enc.Utf8)`): passphrase mode, i.e. AES-256 in CBC mode with
PKCS#7 padding, key and IV derived by the OpenSSL key derivation (one round of
MD5 per block) from the passphrase and an 8-byte random salt, the result
serialised in the OpenSSL `Salted__` format and Base64.  Bytes are natural
numbers below 256; 32-bit words are natural numbers reduced modulo `2 ^ 32`.
-/

namespace CryptoJS

/-- A sequence of bytes (the significant bytes of a `WordArray`). -/
abbrev Bytes := List Nat

/-- Split a list into consecutive pieces of `n` elements (the last one may be
shorter); `fuel` bounds the number of pieces. -/
def chunksAux {α : Type} (n : Nat) : Nat → List α → List (List α)
  | 0, _ => []
  | fuel + 1, l => if l.isEmpty then [] else l.take n :: chunksAux n fuel (l.drop n)

/-- Consecutive pieces of `n` elements of `l`. -/
def chunks {α : Type} (n : Nat) (l : List α) : List (List α) :=
  chunksAux n l.length l

/-! ## `CryptoJS.enc.Utf8` -/

/-- UTF-8 bytes of one code point. -/
def utf8EncodeChar (c : Nat) : Bytes :=
  if c < 0x80 then [c]
  else if c < 0x800 then [0xC0 + c / 64, 0x80 + c % 64]
  else if c < 0x10000 then [0xE0 + c / 4096, 0x80 + c / 64 % 64, 0x80 + c % 64]
  else [0xF0 + c / 262144, 0x80 + c / 4096 % 64, 0x80 + c / 64 % 64, 0x80 + c % 64]

/-- The function `Utf8.parse(str)`, that is `unescape(encodeURIComponent(str))` read as
bytes: the UTF-8 encoding of the string. -/
def Utf8.parse (s : String) : Bytes :=
  s.data.flatMap (fun c => utf8EncodeChar c.toNat)

/-- A UTF-8 continuation byte `10xxxxxx`. -/
def isCont (b : Nat) : Bool := decide (0x80 ≤ b) && decide (b < 0xC0)

/-- The strict UTF-8 decoder of `decodeURIComponent`, one byte at a time.
`need` is the number of continuation bytes still expected, `acc` the value read
so far and `lo` the least value the sequence may encode.  The result is `none`
where the bytes are not the UTF-8 encoding of a sequence of code points (a
stray continuation byte, a truncated or overlong sequence, a surrogate, a
value above `0x10FFFF`). -/
def utf8Go : Nat → Nat → Nat → Bytes → Option (List Char)
  | need, _, _, [] => if need = 0 then some [] else none
  | need, acc, lo, b :: rest =>
    if need = 0 then
      if b < 0x80 then (utf8Go 0 0 0 rest).map (fun cs => Char.ofNat b :: cs)
      else if b < 0xC0 then none
      else if b < 0xE0 then utf8Go 1 (b % 32) 0x80 rest
      else if b < 0xF0 then utf8Go 2 (b % 16) 0x800 rest
      else if b < 0xF8 then utf8Go 3 (b % 8) 0x10000 rest
      else none
    else if isCont b then
      if need = 1 then
        if lo ≤ acc * 64 + b % 64 ∧ acc * 64 + b % 64 < 0x110000
            ∧ ¬ (0xD800 ≤ acc * 64 + b % 64 ∧ acc * 64 + b % 64 < 0xE000) then
          (utf8Go 0 0 0 rest).map (fun cs => Char.ofNat (acc * 64 + b % 64) :: cs)
        else none
      else utf8Go (need - 1) (acc * 64 + b % 64) lo rest
    else none

/-- The decoder started outside a sequence. -/
def utf8Decode (b : Bytes) : Option (List Char) := utf8Go 0 0 0 b

/-- The function `Utf8.stringify(wordArray)`:
`try { return decodeURIComponent(escape(Latin1.stringify(wordArray))) }
 catch (e) { throw new Error('Malformed UTF-8 data') }`. -/
def Utf8.stringify (b : Bytes) : Except String String :=
  match utf8Decode b with
  | some cs => .ok (String.mk cs)
  | none => .error "Malformed UTF-8 data"

/-! ## `CryptoJS.enc.Base64` -/

/-- The UTF-16 code units of a string (what `charCodeAt` and `indexOf` see). -/
def codeUnits (s : String) : List Nat :=
  s.data.flatMap (fun c =>
    if c.toNat < 0x10000 then [c.toNat]
    else [0xD800 + (c.toNat - 0x10000) / 1024, 0xDC00 + (c.toNat - 0x10000) % 1024])

/-- The table `Base64._map`: the 64 digits followed by the padding character. -/
def Base64.map : List Char :=
  "ABCDEFGHIJKLMNOPQRSTUVWXYZabcdefghijklmnopqrstuvwxyz0123456789+/=".data

/-- The digit `map.charAt(i)`. -/
def Base64.charAt (i : Nat) : Char := Base64.map.getD i ' '

/-- The value `reverseMap[code]` as the shifts of `parseLoop` see it: the index of the
character in `_map`, and 0 for a character that is not in it (`undefined`). -/
def Base64.reverseMap (code : Nat) : Nat :=
  let i := (Base64.map.map Char.toNat).indexOf code
  if i < 65 then i else 0

/-- The character loop of `Base64.stringify`: three bytes give four digits,
a final group of one or two bytes gives two or three digits and is filled up
with the padding character. -/
def Base64.stringifyChars : Bytes → List Char
  | [] => []
  | [a] => [charAt (a / 4), charAt (a % 4 * 16), '=', '=']
  | [a, b] => [charAt (a / 4), charAt (a % 4 * 16 + b / 16), charAt (b % 16 * 4), '=']
  | a :: b :: c :: rest =>
    charAt (a / 4) :: charAt (a % 4 * 16 + b / 16) :: charAt (b % 16 * 4 + c / 64)
      :: charAt (c % 64) :: stringifyChars rest

/-- The function `Base64.stringify(wordArray)`. -/
def Base64.stringify (b : Bytes) : String := String.mk (Base64.stringifyChars b)

/-- The function `parseLoop`: every position `i` with `i % 4 ≠ 0` contributes the byte
`(reverseMap[i-1] << (i%4)*2) | (reverseMap[i] >>> (6 - (i%4)*2))`. -/
def Base64.parseLoop : List Nat → Bytes
  | v0 :: v1 :: v2 :: v3 :: rest =>
    (v0 * 4 % 256 + v1 / 16) :: (v1 * 16 % 256 + v2 / 4) :: (v2 * 64 % 256 + v3)
      :: parseLoop rest
  | [v0, v1, v2] => [v0 * 4 % 256 + v1 / 16, v1 * 16 % 256 + v2 / 4]
  | [v0, v1] => [v0 * 4 % 256 + v1 / 16]
  | _ => []

/-- The function `Base64.parse(base64Str)`: the string is cut at the first padding
character, then decoded by `parseLoop`. -/
def Base64.parse (s : String) : Bytes :=
  Base64.parseLoop (((codeUnits s).takeWhile (fun u => u != 61)).map Base64.reverseMap)

/-! ## `CryptoJS.MD5` and `CryptoJS.EvpKDF` -/

/-- Addition of 32-bit words. -/
def add32 (a b : Nat) : Nat := (a + b) % 4294967296

/-- Rotate a 32-bit word left by `n` bits. -/
def rotl32 (x n : Nat) : Nat := (x <<< n ||| x >>> (32 - n)) % 4294967296

/-- Bitwise complement of a 32-bit word. -/
def not32 (x : Nat) : Nat := 4294967295 - x % 4294967296

/-- The four bytes of a 32-bit word, least significant first. -/
def wordToBytesLE (w : Nat) : Bytes :=
  [w % 256, w / 256 % 256, w / 65536 % 256, w / 16777216 % 256]

/-- The 32-bit word of four bytes, least significant first. -/
def bytesToWordLE (b : Bytes) : Nat :=
  b.getD 0 0 + b.getD 1 0 * 256 + b.getD 2 0 * 65536 + b.getD 3 0 * 16777216

/-- The MD5 constants `T[i] = floor(2^32 * |sin(i + 1)|)`. -/
def md5T : List Nat := [
  0xd76aa478, 0xe8c7b756, 0x242070db, 0xc1bdceee,
  0xf57c0faf, 0x4787c62a, 0xa8304613, 0xfd469501,
  0x698098d8, 0x8b44f7af, 0xffff5bb1, 0x895cd7be,
  0x6b901122, 0xfd987193, 0xa679438e, 0x49b40821,
  0xf61e2562, 0xc040b340, 0x265e5a51, 0xe9b6c7aa,
  0xd62f105d, 0x02441453, 0xd8a1e681, 0xe7d3fbc8,
  0x21e1cde6, 0xc33707d6, 0xf4d50d87, 0x455a14ed,
  0xa9e3e905, 0xfcefa3f8, 0x676f02d9, 0x8d2a4c8a,
  0xfffa3942, 0x8771f681, 0x6d9d6122, 0xfde5380c,
  0xa4beea44, 0x4bdecfa9, 0xf6bb4b60, 0xbebfbc70,
  0x289b7ec6, 0xeaa127fa, 0xd4ef3085, 0x04881d05,
  0xd9d4d039, 0xe6db99e5, 0x1fa27cf8, 0xc4ac5665,
  0xf4292244, 0x432aff97, 0xab9423a7, 0xfc93a039,
  0x655b59c3, 0x8f0ccc92, 0xffeff47d, 0x85845dd1,
  0x6fa87e4f, 0xfe2ce6e0, 0xa3014314, 0x4e0811a1,
  0xf7537e82, 0xbd3af235, 0x2ad7d2bb, 0xeb86d391]

/-- The MD5 per-step rotation amounts. -/
def md5S : List Nat :=
  [7, 12, 17, 22, 7, 12, 17, 22, 7, 12, 17, 22, 7, 12, 17, 22,
   5, 9, 14, 20, 5, 9, 14, 20, 5, 9, 14, 20, 5, 9, 14, 20,
   4, 11, 16, 23, 4, 11, 16, 23, 4, 11, 16, 23, 4, 11, 16, 23,
   6, 10, 15, 21, 6, 10, 15, 21, 6, 10, 15, 21, 6, 10, 15, 21]

/-- The MD5 chaining value `(a, b, c, d)`. -/
structure Md5State where
  a : Nat
  b : Nat
  c : Nat
  d : Nat

/-- One of the 64 MD5 steps on the message words `m`. -/
def md5Step (m : List Nat) (s : Md5State) (i : Nat) : Md5State :=
  let f :=
    if i < 16 then (s.b &&& s.c) ||| (not32 s.b &&& s.d)
    else if i < 32 then (s.b &&& s.d) ||| (s.c &&& not32 s.d)
    else if i < 48 then s.b ^^^ s.c ^^^ s.d
    else s.c ^^^ (s.b ||| not32 s.d)
  let g :=
    if i < 16 then i
    else if i < 32 then (5 * i + 1) % 16
    else if i < 48 then (3 * i + 5) % 16
    else 7 * i % 16
  let t := add32 (add32 (add32 s.a f) (m.getD g 0)) (md5T.getD i 0)
  { a := s.d, b := add32 s.b (rotl32 t (md5S.getD i 0)), c := s.b, d := s.c }

/-- The MD5 compression of one 64-byte block. -/
def md5Block (s : Md5State) (block : Bytes) : Md5State :=
  let m := (chunks 4 block).map bytesToWordLE
  let r := (List.range 64).foldl (md5Step m) s
  { a := add32 s.a r.a, b := add32 s.b r.b, c := add32 s.c r.c, d := add32 s.d r.d }

/-- The eight bytes of the message length in bits, least significant first. -/
def md5Length (n : Nat) : Bytes :=
  (List.range 8).map (fun i => n * 8 / 256 ^ i % 256)

/-- The MD5 digest (16 bytes) of a message. -/
def MD5 (msg : Bytes) : Bytes :=
  let padded := msg ++ [0x80] ++ List.replicate ((119 - msg.length % 64) % 64) 0
    ++ md5Length msg.length
  let s := (chunks 64 padded).foldl md5Block
    { a := 0x67452301, b := 0xefcdab89, c := 0x98badcfe, d := 0x10325476 }
  wordToBytesLE s.a ++ wordToBytesLE s.b ++ wordToBytesLE s.c ++ wordToBytesLE s.d

/-- The derivation `EvpKDF.create({ keySize: 8 + 4 }).compute(password, salt)` with the
default hasher (MD5) and one iteration: 48 bytes, each 16-byte block the digest
of the previous block, the password and the salt. -/
def EvpKDF (password salt : Bytes) : Bytes :=
  let b1 := MD5 (password ++ salt)
  let b2 := MD5 (b1 ++ password ++ salt)
  let b3 := MD5 (b2 ++ password ++ salt)
  b1 ++ b2 ++ b3

/-! ## `CryptoJS.AES` (the block cipher) -/

/-- The AES substitution box. -/
def sboxTable : List Nat := [
  0x63, 0x7c, 0x77, 0x7b, 0xf2, 0x6b, 0x6f, 0xc5, 0x30, 0x01, 0x67, 0x2b, 0xfe, 0xd7, 0xab, 0x76,
  0xca, 0x82, 0xc9, 0x7d, 0xfa, 0x59, 0x47, 0xf0, 0xad, 0xd4, 0xa2, 0xaf, 0x9c, 0xa4, 0x72, 0xc0,
  0xb7, 0xfd, 0x93, 0x26, 0x36, 0x3f, 0xf7, 0xcc, 0x34, 0xa5, 0xe5, 0xf1, 0x71, 0xd8, 0x31, 0x15,
  0x04, 0xc7, 0x23, 0xc3, 0x18, 0x96, 0x05, 0x9a, 0x07, 0x12, 0x80, 0xe2, 0xeb, 0x27, 0xb2, 0x75,
  0x09, 0x83, 0x2c, 0x1a, 0x1b, 0x6e, 0x5a, 0xa0, 0x52, 0x3b, 0xd6, 0xb3, 0x29, 0xe3, 0x2f, 0x84,
  0x53, 0xd1, 0x00, 0xed, 0x20, 0xfc, 0xb1, 0x5b, 0x6a, 0xcb, 0xbe, 0x39, 0x4a, 0x4c, 0x58, 0xcf,
  0xd0, 0xef, 0xaa, 0xfb, 0x43, 0x4d, 0x33, 0x85, 0x45, 0xf9, 0x02, 0x7f, 0x50, 0x3c, 0x9f, 0xa8,
  0x51, 0xa3, 0x40, 0x8f, 0x92, 0x9d, 0x38, 0xf5, 0xbc, 0xb6, 0xda, 0x21, 0x10, 0xff, 0xf3, 0xd2,
  0xcd, 0x0c, 0x13, 0xec, 0x5f, 0x97, 0x44, 0x17, 0xc4, 0xa7, 0x7e, 0x3d, 0x64, 0x5d, 0x19, 0x73,
  0x60, 0x81, 0x4f, 0xdc, 0x22, 0x2a, 0x90, 0x88, 0x46, 0xee, 0xb8, 0x14, 0xde, 0x5e, 0x0b, 0xdb,
  0xe0, 0x32, 0x3a, 0x0a, 0x49, 0x06, 0x24, 0x5c, 0xc2, 0xd3, 0xac, 0x62, 0x91, 0x95, 0xe4, 0x79,
  0xe7, 0xc8, 0x37, 0x6d, 0x8d, 0xd5, 0x4e, 0xa9, 0x6c, 0x56, 0xf4, 0xea, 0x65, 0x7a, 0xae, 0x08,
  0xba, 0x78, 0x25, 0x2e, 0x1c, 0xa6, 0xb4, 0xc6, 0xe8, 0xdd, 0x74, 0x1f, 0x4b, 0xbd, 0x8b, 0x8a,
  0x70, 0x3e, 0xb5, 0x66, 0x48, 0x03, 0xf6, 0x0e, 0x61, 0x35, 0x57, 0xb9, 0x86, 0xc1, 0x1d, 0x9e,
  0xe1, 0xf8, 0x98, 0x11, 0x69, 0xd9, 0x8e, 0x94, 0x9b, 0x1e, 0x87, 0xe9, 0xce, 0x55, 0x28, 0xdf,
  0x8c, 0xa1, 0x89, 0x0d, 0xbf, 0xe6, 0x42, 0x68, 0x41, 0x99, 0x2d, 0x0f, 0xb0, 0x54, 0xbb, 0x16]

/-- The inverse AES substitution box. -/
def invSboxTable : List Nat := [
  0x52, 0x09, 0x6a, 0xd5, 0x30, 0x36, 0xa5, 0x38, 0xbf, 0x40, 0xa3, 0x9e, 0x81, 0xf3, 0xd7, 0xfb,
  0x7c, 0xe3, 0x39, 0x82, 0x9b, 0x2f, 0xff, 0x87, 0x34, 0x8e, 0x43, 0x44, 0xc4, 0xde, 0xe9, 0xcb,
  0x54, 0x7b, 0x94, 0x32, 0xa6, 0xc2, 0x23, 0x3d, 0xee, 0x4c, 0x95, 0x0b, 0x42, 0xfa, 0xc3, 0x4e,
  0x08, 0x2e, 0xa1, 0x66, 0x28, 0xd9, 0x24, 0xb2, 0x76, 0x5b, 0xa2, 0x49, 0x6d, 0x8b, 0xd1, 0x25,
  0x72, 0xf8, 0xf6, 0x64, 0x86, 0x68, 0x98, 0x16, 0xd4, 0xa4, 0x5c, 0xcc, 0x5d, 0x65, 0xb6, 0x92,
  0x6c, 0x70, 0x48, 0x50, 0xfd, 0xed, 0xb9, 0xda, 0x5e, 0x15, 0x46, 0x57, 0xa7, 0x8d, 0x9d, 0x84,
  0x90, 0xd8, 0xab, 0x00, 0x8c, 0xbc, 0xd3, 0x0a, 0xf7, 0xe4, 0x58, 0x05, 0xb8, 0xb3, 0x45, 0x06,
  0xd0, 0x2c, 0x1e, 0x8f, 0xca, 0x3f, 0x0f, 0x02, 0xc1, 0xaf, 0xbd, 0x03, 0x01, 0x13, 0x8a, 0x6b,
  0x3a, 0x91, 0x11, 0x41, 0x4f, 0x67, 0xdc, 0xea, 0x97, 0xf2, 0xcf, 0xce, 0xf0, 0xb4, 0xe6, 0x73,
  0x96, 0xac, 0x74, 0x22, 0xe7, 0xad, 0x35, 0x85, 0xe2, 0xf9, 0x37, 0xe8, 0x1c, 0x75, 0xdf, 0x6e,
  0x47, 0xf1, 0x1a, 0x71, 0x1d, 0x29, 0xc5, 0x89, 0x6f, 0xb7, 0x62, 0x0e, 0xaa, 0x18, 0xbe, 0x1b,
  0xfc, 0x56, 0x3e, 0x4b, 0xc6, 0xd2, 0x79, 0x20, 0x9a, 0xdb, 0xc0, 0xfe, 0x78, 0xcd, 0x5a, 0xf4,
  0x1f, 0xdd, 0xa8, 0x33, 0x88, 0x07, 0xc7, 0x31, 0xb1, 0x12, 0x10, 0x59, 0x27, 0x80, 0xec, 0x5f,
  0x60, 0x51, 0x7f, 0xa9, 0x19, 0xb5, 0x4a, 0x0d, 0x2d, 0xe5, 0x7a, 0x9f, 0x93, 0xc9, 0x9c, 0xef,
  0xa0, 0xe0, 0x3b, 0x4d, 0xae, 0x2a, 0xf5, 0xb0, 0xc8, 0xeb, 0xbb, 0x3c, 0x83, 0x53, 0x99, 0x61,
  0x17, 0x2b, 0x04, 0x7e, 0xba, 0x77, 0xd6, 0x26, 0xe1, 0x69, 0x14, 0x63, 0x55, 0x21, 0x0c, 0x7d]

/-- The substitution of one byte. -/
def sbox (b : Nat) : Nat := sboxTable.getD b 0

/-- The inverse substitution of one byte. -/
def invSbox (b : Nat) : Nat := invSboxTable.getD b 0

/-- Multiplication by `x` in GF(2^8) modulo `x^8 + x^4 + x^3 + x + 1`. -/
def xtime (a : Nat) : Nat := 2 * a % 256 ^^^ (if a.testBit 7 then 27 else 0)

/-- Multiplication by 3 in GF(2^8). -/
def mul3 (a : Nat) : Nat := xtime a ^^^ a

/-- Multiplication by 9 in GF(2^8). -/
def mul9 (a : Nat) : Nat := xtime (xtime (xtime a)) ^^^ a

/-- Multiplication by 11 in GF(2^8). -/
def mul11 (a : Nat) : Nat := xtime (xtime (xtime a)) ^^^ xtime a ^^^ a

/-- Multiplication by 13 in GF(2^8). -/
def mul13 (a : Nat) : Nat := xtime (xtime (xtime a)) ^^^ xtime (xtime a) ^^^ a

/-- Multiplication by 14 in GF(2^8). -/
def mul14 (a : Nat) : Nat := xtime (xtime (xtime a)) ^^^ xtime (xtime a) ^^^ xtime a

/-- A 16-byte block, in the byte order of the data (column by column). -/
abbrev Block := List Nat

/-- A partial block is completed with zero bytes (`undefined` words count as 0). -/
def zeroFill (b : Block) : Block := (List.range 16).map (fun i => b.getD i 0)

/-- Byte-wise exclusive or of two blocks. -/
def xorBlock (a b : Block) : Block :=
  (List.range 16).map (fun i => a.getD i 0 ^^^ b.getD i 0)

/-- Byte `k` (0 the most significant) of a 32-bit word. -/
def byteOfWord (w k : Nat) : Nat := w / 256 ^ (3 - k) % 256

/-- The sbox applied to the four bytes of a word. -/
def subWord (w : Nat) : Nat :=
  sbox (byteOfWord w 0) * 16777216 + sbox (byteOfWord w 1) * 65536
    + sbox (byteOfWord w 2) * 256 + sbox (byteOfWord w 3)

/-- Rotate a word left by one byte. -/
def rotWord (w : Nat) : Nat := w % 16777216 * 256 + w / 16777216 % 256

/-- The round constants. -/
def rcon : List Nat := [0x00, 0x01, 0x02, 0x04, 0x08, 0x10, 0x20, 0x40, 0x80, 0x1b, 0x36]

/-- The big-endian words of a byte sequence. -/
def bytesToWordsBE (b : Bytes) : List Nat :=
  (chunks 4 b).map (fun w =>
    w.getD 0 0 * 16777216 + w.getD 1 0 * 65536 + w.getD 2 0 * 256 + w.getD 3 0)

/-- One step of the key expansion for an 8-word key: word `i` from the words
before it. -/
def keyScheduleStep (ws : List Nat) (i : Nat) : List Nat :=
  let t := ws.getD (i - 1) 0
  let t :=
    if i % 8 = 0 then subWord (rotWord t) ^^^ (rcon.getD (i / 8) 0 * 16777216)
    else if i % 8 = 4 then subWord t
    else t
  ws ++ [ws.getD (i - 8) 0 ^^^ t]

/-- The 60 words of the AES-256 key schedule of a 32-byte key. -/
def keySchedule (key : Bytes) : List Nat :=
  (List.range' 8 52).foldl keyScheduleStep (bytesToWordsBE (key.take 32))

/-- Byte `i` of round key `r` of the schedule `ws`. -/
def roundKeyByte (ws : List Nat) (r i : Nat) : Nat :=
  byteOfWord (ws.getD (4 * r + i / 4) 0) (i % 4)

/-- Exclusive or with round key `r` of the schedule `ws`. -/
def addRoundKey (ws : List Nat) (r : Nat) (s : Block) : Block :=
  (List.range 16).map (fun i => s.getD i 0 ^^^ roundKeyByte ws r i)

/-- The byte substitution layer. -/
def subBytes (s : Block) : Block := s.map sbox

/-- The inverse byte substitution layer. -/
def invSubBytes (s : Block) : Block := s.map invSbox

/-- Row `r` of the state is rotated left by `r` columns. -/
def shiftRows (s : Block) : Block :=
  [0, 5, 10, 15, 4, 9, 14, 3, 8, 13, 2, 7, 12, 1, 6, 11].map (fun i => s.getD i 0)

/-- Row `r` of the state is rotated right by `r` columns. -/
def invShiftRows (s : Block) : Block :=
  [0, 13, 10, 7, 4, 1, 14, 11, 8, 5, 2, 15, 12, 9, 6, 3].map (fun i => s.getD i 0)

/-- The column mixing of one column. -/
def mixColumn (a b c d : Nat) : List Nat :=
  [xtime a ^^^ mul3 b ^^^ c ^^^ d, a ^^^ xtime b ^^^ mul3 c ^^^ d,
   a ^^^ b ^^^ xtime c ^^^ mul3 d, mul3 a ^^^ b ^^^ c ^^^ xtime d]

/-- The inverse column mixing of one column. -/
def invMixColumn (a b c d : Nat) : List Nat :=
  [mul14 a ^^^ mul11 b ^^^ mul13 c ^^^ mul9 d, mul9 a ^^^ mul14 b ^^^ mul11 c ^^^ mul13 d,
   mul13 a ^^^ mul9 b ^^^ mul14 c ^^^ mul11 d, mul11 a ^^^ mul13 b ^^^ mul9 c ^^^ mul14 d]

/-- The column mixing layer. -/
def mixColumns (s : Block) : Block :=
  (List.range 4).flatMap (fun j =>
    mixColumn (s.getD (4 * j) 0) (s.getD (4 * j + 1) 0) (s.getD (4 * j + 2) 0) (s.getD (4 * j + 3) 0))

/-- The inverse column mixing layer. -/
def invMixColumns (s : Block) : Block :=
  (List.range 4).flatMap (fun j =>
    invMixColumn (s.getD (4 * j) 0) (s.getD (4 * j + 1) 0) (s.getD (4 * j + 2) 0) (s.getD (4 * j + 3) 0))

/-- One of the 13 full rounds of encryption. -/
def encRound (ws : List Nat) (s : Block) (r : Nat) : Block :=
  addRoundKey ws r (mixColumns (shiftRows (subBytes s)))

/-- The inverse of a full round. -/
def decRound (ws : List Nat) (s : Block) (r : Nat) : Block :=
  invSubBytes (invShiftRows (invMixColumns (addRoundKey ws r s)))

/-- AES-256 encryption of one block under the key schedule `ws`. -/
def encryptBlock (ws : List Nat) (s : Block) : Block :=
  addRoundKey ws 14 (shiftRows (subBytes ((List.range' 1 13).foldl (encRound ws) (addRoundKey ws 0 s))))

/-- AES-256 decryption of one block under the key schedule `ws`. -/
def decryptBlock (ws : List Nat) (s : Block) : Block :=
  addRoundKey ws 0 ((List.range' 1 13).reverse.foldl (decRound ws)
    (invSubBytes (invShiftRows (addRoundKey ws 14 s))))

/-! ## CBC mode, PKCS#7 padding, the OpenSSL format -/

/-- CBC encryption: each block is xored with the previous ciphertext block
(the IV for the first) and encrypted. -/
def cbcEncrypt (ws : List Nat) : Block → List Block → List Block
  | _, [] => []
  | prev, b :: bs =>
    let c := encryptBlock ws (xorBlock b prev)
    c :: cbcEncrypt ws c bs

/-- CBC decryption: each block is decrypted and xored with the previous
ciphertext block (the IV for the first). -/
def cbcDecrypt (ws : List Nat) : Block → List Block → List Block
  | _, [] => []
  | prev, c :: cs => xorBlock (decryptBlock ws (zeroFill c)) prev :: cbcDecrypt ws (zeroFill c) cs

/-- The padding `Pkcs7.pad(data, 4)`: `n = 16 - len % 16` bytes of value `n` are appended. -/
def Pkcs7.pad (data : Bytes) : Bytes :=
  data ++ List.replicate (16 - data.length % 16) (16 - data.length % 16)

/-- The unpadding `Pkcs7.unpad(data)`: `nPaddingBytes = data.words[(data.sigBytes - 1) >>> 2] & 0xff;
data.sigBytes -= nPaddingBytes`.  `words` are the processed blocks, `sigBytes`
the number of ciphertext bytes; the result is the bytes that remain
significant. -/
def Pkcs7.unpad (words : Bytes) (sigBytes : Nat) : Bytes :=
  let nPaddingBytes := if sigBytes = 0 then 0 else words.getD ((sigBytes - 1) / 4 * 4 + 3) 0
  words.take (sigBytes - nPaddingBytes)

/-- The derived key (32 bytes) and IV (16 bytes) of `OpenSSLKdf.execute`. -/
structure DerivedParams where
  key : Bytes
  iv : Bytes

/-- The call `OpenSSLKdf.execute(password, 8, 4, salt)`. -/
def OpenSSLKdf.execute (password : String) (salt : Bytes) : DerivedParams :=
  let k := EvpKDF (Utf8.parse password) salt
  { key := k.take 32, iv := (k.drop 32).take 16 }

/-- The `CipherParams` object of a passphrase encryption: ciphertext and salt. -/
structure CipherParams where
  ciphertext : Bytes
  salt : Option Bytes

/-- The eight bytes `Salted__` (the words `0x53616c74, 0x65645f5f`). -/
def saltedPrefix : Bytes := [0x53, 0x61, 0x6c, 0x74, 0x65, 0x64, 0x5f, 0x5f]

/-- The formatter `OpenSSL.stringify(cipherParams)` (what `cipherParams.toString()` returns). -/
def OpenSSL.stringify (cp : CipherParams) : String :=
  match cp.salt with
  | some salt => Base64.stringify (saltedPrefix ++ salt ++ cp.ciphertext)
  | none => Base64.stringify cp.ciphertext

/-- The bytes of whole words: a `WordArray` made of words has a multiple of
four bytes, the missing ones being zero. -/
def wholeWords (b : Bytes) : Bytes :=
  b ++ List.replicate ((4 - b.length % 4) % 4) 0

/-- The formatter `OpenSSL.parse(openSSLStr)`: when the decoded data starts with the words
of `Salted__`, words 2 and 3 are the salt and the first four words are removed
from the ciphertext. -/
def OpenSSL.parse (s : String) : CipherParams :=
  let data := Base64.parse s
  if data.take 8 = saltedPrefix then
    { ciphertext := data.drop 16, salt := some (wholeWords ((data.drop 8).take 8)) }
  else { ciphertext := data, salt := none }

/-- The 8 random bytes of `WordArray.random(64/8)`. -/
structure Salt where
  bytes : Bytes
  length_eq : bytes.length = 8
  lt : ∀ b ∈ bytes, b < 256

/-- The bytes a message adds to the buffer of the cipher: its UTF-8 encoding, and
nothing when it is falsy (`undefined`, `null`, the empty string). -/
def messageBytes (message : Option String) : Bytes :=
  match message with
  | some m => Utf8.parse m
  | none => []

/-- The call `CryptoJS.AES.encrypt(message, passphrase)` for a string passphrase: key
and IV are derived from the passphrase and a fresh random salt; the message
(nothing when it is falsy: `undefined`, `null` or the empty string) is parsed
as UTF-8, padded and encrypted in CBC mode. -/
def AES.encrypt (rnd : Salt) (message : Option String) (passphrase : String) : CipherParams :=
  let p := OpenSSLKdf.execute passphrase rnd.bytes
  { ciphertext :=
      (cbcEncrypt (keySchedule p.key) p.iv (chunks 16 (Pkcs7.pad (messageBytes message)))).flatten,
    salt := some rnd.bytes }

/-- The call `CryptoJS.AES.decrypt(ciphertext, passphrase)` for a string ciphertext and
a string passphrase: the string is parsed in the OpenSSL format, key and IV are
derived from the passphrase and the salt found there (a random one when there
is none), the data is decrypted in CBC mode and unpadded. -/
def AES.decrypt (rnd : Salt) (ciphertext : String) (passphrase : String) : Bytes :=
  let cp := OpenSSL.parse ciphertext
  let p := OpenSSLKdf.execute passphrase (cp.salt.getD rnd.bytes)
  Pkcs7.unpad (cbcDecrypt (keySchedule p.key) p.iv (chunks 16 cp.ciphertext)).flatten
    cp.ciphertext.length

/-! ## Auxiliary notions of the proofs -/

/-- The decoded digit values of a string up to its first padding character. -/
def Base64.digits (cs : List Char) : List Nat :=
  ((codeUnits (String.mk cs)).takeWhile (fun u => u != 61)).map Base64.reverseMap

/-- A well-formed block: 16 bytes. -/
def IsBlock (s : Block) : Prop := s.length = 16 ∧ ∀ x ∈ s, x < 256

end CryptoJS

/-! ## `server.js`: the cipher helpers -/

/-- The helper `const encrypt = (text) => CryptoJS.AES.encrypt(text, process.env.SECRET_KEY).toString()`.
`rnd` is the salt the library draws for this call. -/
def encrypt (SECRET_KEY : String) (rnd : CryptoJS.Salt) (text : Option String) : String :=
  CryptoJS.OpenSSL.stringify (CryptoJS.AES.encrypt rnd text SECRET_KEY)

/-- The helper `const decrypt = (ciphertext) => { const bytes = CryptoJS.AES.decrypt(ciphertext,
process.env.SECRET_KEY); return bytes.toString(CryptoJS.enc.Utf8); }`.  The result is the
returned string, or the message of the error thrown.  `rnd` is the salt the library draws
when the ciphertext carries none. -/
def decrypt (SECRET_KEY : String) (rnd : CryptoJS.Salt) (ciphertext : String) :
    Except String String :=
  let bytes := CryptoJS.AES.decrypt rnd ciphertext SECRET_KEY
  CryptoJS.Utf8.stringify bytes

/-! ## The two collections -/

/-- A document of the `Key` collection (`KeySchema`); the three secrets are stored encrypted. -/
structure KeySchema where
  userId : String
  openaiKey : String
  paypalClientId : String
  paypalSecret : String
deriving DecidableEq, Repr

/-- A document of the `Case` collection (`CaseSchema`).  `details` is an object: its fields
in order, a field that is `undefined` or `null` having the value `none`.  `timestamp` is in
milliseconds. -/
structure CaseSchema where
  userId : String
  type : String
  details : List (String × Option String)
  timestamp : Nat
deriving DecidableEq, Repr

/-- The database: the documents of both collections in insertion order. -/
structure Db where
  keys : List KeySchema
  cases : List CaseSchema
deriving DecidableEq, Repr

/-- What the outside world answers during one request: for each database operation whether
it rejects (`some message`) or goes through (`none`), the clock, the salts drawn by the cipher
library, and the result of the provider call (`.error message` when it rejects; on success the
`content` of the first choice, the `url` of the first image, the `id` of the order). -/
structure World where
  keyFindOne : Option String
  keyFindOneAndUpdate : Option String
  caseCreate : Option String
  caseFind : Option String
  now : Nat
  rnd1 : CryptoJS.Salt
  rnd2 : CryptoJS.Salt
  rnd3 : CryptoJS.Salt
  chatCompletion : Except String (Option String)
  imageGenerate : Except String (Option String)
  paypalExecute : Except String (Option String)

/-- The document `Key.findOne({ userId })` resolves to: the first one of that user. -/
def Key.findOne (db : Db) (userId : String) : Option KeySchema :=
  db.keys.find? (fun d => d.userId = userId)

/-- The first document of the user is replaced by `doc`; a new one is inserted when there is
none (`upsert: true`). -/
def Key.upsert (userId : String) (doc : KeySchema) : List KeySchema → List KeySchema
  | [] => [doc]
  | d :: ds => if d.userId = userId then doc :: ds else d :: Key.upsert userId doc ds

/-- The call `Key.findOneAndUpdate({ userId }, doc, { upsert: true })`. -/
def Key.findOneAndUpdate (db : Db) (userId : String) (doc : KeySchema) : Db :=
  { db with keys := Key.upsert userId doc db.keys }

/-- The call `Case.create({ userId, type, details })`: one document is appended, its `timestamp` the
schema default `Date.now`. -/
def Case.create (db : Db) (now : Nat) (userId type : String)
    (details : List (String × Option String)) : Db :=
  { db with cases := db.cases ++ [{ userId := userId, type := type, details := details,
                                    timestamp := now }] }

/-- The order of `sort({ timestamp: -1 })`: `a` may stand before `b`. -/
def newerFirst (a b : CaseSchema) : Prop := b.timestamp ≤ a.timestamp

instance : DecidableRel newerFirst := fun a b => inferInstanceAs (Decidable (b.timestamp ≤ a.timestamp))

/-- The query `Case.find({ userId }).sort({ timestamp: -1 })`: the records of the user, by
insertion into a list kept newest first (records of equal timestamp stay in insertion order). -/
def Case.find (db : Db) (userId : String) : List CaseSchema :=
  (db.cases.filter (fun c => c.userId = userId)).insertionSort newerFirst

/-! ## The responses -/

/-- The JSON body of a response. -/
inductive Body where
  | error (error : String)
  | message (message : String)
  | response (response : Option String)
  | imageUrl (imageUrl : Option String)
  | orderId (orderId : Option String)
  | cases (cases : List CaseSchema)
deriving DecidableEq, Repr

/-- A response: `res.status(status).json(body)`; `res.json(body)` has status 200. -/
structure Response where
  status : Nat
  body : Body
deriving DecidableEq, Repr

/-- A call to an external provider: one call of the SDK method (`chat.completions.create`,
`images.generate`, `execute`), with the credentials of the client that makes it. -/
inductive ProviderCall where
  | chat (apiKey : String) (prompt : Option String)
  | image (apiKey : String) (prompt : Option String)
  | paypal (clientId clientSecret : String) (amount : Option String)
deriving DecidableEq, Repr

/-- What a handler does: its response, the database afterwards, and the provider calls it
made, in order. -/
structure Outcome where
  res : Response
  db : Db
  calls : List ProviderCall
deriving DecidableEq, Repr

/-! ## The routes -/

/-- The handler `app.post('/keys', ...)`: the three secrets are encrypted, the bundle of the
user is replaced or inserted, a `key_update` case is appended. -/
def postKeys (SECRET_KEY : String) (w : World) (db : Db) (userId : String)
    (openaiKey paypalClientId paypalSecret : Option String) : Outcome :=
  let encryptedKeys : KeySchema :=
    { userId := userId,
      openaiKey := encrypt SECRET_KEY w.rnd1 openaiKey,
      paypalClientId := encrypt SECRET_KEY w.rnd2 paypalClientId,
      paypalSecret := encrypt SECRET_KEY w.rnd3 paypalSecret }
  match w.keyFindOneAndUpdate with
  | some err => { res := ⟨500, .error err⟩, db := db, calls := [] }
  | none =>
    let db1 := Key.findOneAndUpdate db userId encryptedKeys
    match w.caseCreate with
    | some err => { res := ⟨500, .error err⟩, db := db1, calls := [] }
    | none =>
      { res := ⟨200, .message "Schlüssel gespeichert"⟩,
        db := Case.create db1 w.now userId "key_update"
          [("message", some "Schlüssel aktualisiert")],
        calls := [] }

/-- The handler `app.post('/chat', ...)`: the bundle is looked up, the `openaiKey` slot is
decrypted for the client of this call, the completion is requested, a `chat` case is appended.
Whatever is thrown on the way is answered by the `catch` with status 500 and the message. -/
def postChat (SECRET_KEY : String) (w : World) (db : Db) (userId : String)
    (prompt : Option String) : Outcome :=
  match w.keyFindOne with
  | some err => { res := ⟨500, .error err⟩, db := db, calls := [] }
  | none =>
    match Key.findOne db userId with
    | none => { res := ⟨400, .error "Keine Schlüssel gefunden"⟩, db := db, calls := [] }
    | some keyData =>
      match decrypt SECRET_KEY w.rnd1 keyData.openaiKey with
      | .error err => { res := ⟨500, .error err⟩, db := db, calls := [] }
      | .ok apiKey =>
        match w.chatCompletion with
        | .error err =>
          { res := ⟨500, .error err⟩, db := db, calls := [.chat apiKey prompt] }
        | .ok content =>
          match w.caseCreate with
          | some err =>
            { res := ⟨500, .error err⟩, db := db, calls := [.chat apiKey prompt] }
          | none =>
            { res := ⟨200, .response content⟩,
              db := Case.create db w.now userId "chat"
                [("prompt", prompt), ("response", content)],
              calls := [.chat apiKey prompt] }

/-- The handler `app.post('/image', ...)`: as `/chat`, for the image generation. -/
def postImage (SECRET_KEY : String) (w : World) (db : Db) (userId : String)
    (prompt : Option String) : Outcome :=
  match w.keyFindOne with
  | some err => { res := ⟨500, .error err⟩, db := db, calls := [] }
  | none =>
    match Key.findOne db userId with
    | none => { res := ⟨400, .error "Keine Schlüssel gefunden"⟩, db := db, calls := [] }
    | some keyData =>
      match decrypt SECRET_KEY w.rnd1 keyData.openaiKey with
      | .error err => { res := ⟨500, .error err⟩, db := db, calls := [] }
      | .ok apiKey =>
        match w.imageGenerate with
        | .error err =>
          { res := ⟨500, .error err⟩, db := db, calls := [.image apiKey prompt] }
        | .ok url =>
          match w.caseCreate with
          | some err =>
            { res := ⟨500, .error err⟩, db := db, calls := [.image apiKey prompt] }
          | none =>
            { res := ⟨200, .imageUrl url⟩,
              db := Case.create db w.now userId "image"
                [("prompt", prompt), ("imageUrl", url)],
              calls := [.image apiKey prompt] }

/-- The handler `app.post('/paypal', ...)`: the client id and the secret are decrypted, in this
order, the order is created, a `payment` case is appended. -/
def postPaypal (SECRET_KEY : String) (w : World) (db : Db) (userId : String)
    (amount : Option String) : Outcome :=
  match w.keyFindOne with
  | some err => { res := ⟨500, .error err⟩, db := db, calls := [] }
  | none =>
    match Key.findOne db userId with
    | none => { res := ⟨400, .error "Keine Schlüssel gefunden"⟩, db := db, calls := [] }
    | some keyData =>
      match decrypt SECRET_KEY w.rnd1 keyData.paypalClientId with
      | .error err => { res := ⟨500, .error err⟩, db := db, calls := [] }
      | .ok clientId =>
        match decrypt SECRET_KEY w.rnd2 keyData.paypalSecret with
        | .error err => { res := ⟨500, .error err⟩, db := db, calls := [] }
        | .ok clientSecret =>
          match w.paypalExecute with
          | .error err =>
            { res := ⟨500, .error err⟩, db := db,
              calls := [.paypal clientId clientSecret amount] }
          | .ok id =>
            match w.caseCreate with
            | some err =>
              { res := ⟨500, .error err⟩, db := db,
                calls := [.paypal clientId clientSecret amount] }
            | none =>
              { res := ⟨200, .orderId id⟩,
                db := Case.create db w.now userId "payment"
                  [("orderId", id), ("amount", amount)],
                calls := [.paypal clientId clientSecret amount] }

/-- The handler `app.get('/cases', ...)`. -/
def getCases (w : World) (db : Db) (userId : String) : Outcome :=
  match w.caseFind with
  | some err => { res := ⟨500, .error err⟩, db := db, calls := [] }
  | none => { res := ⟨200, .cases (Case.find db userId)⟩, db := db, calls := [] }

/-- A request to one of the five routes, with the fields the handler reads. -/
inductive Request where
  | keys (userId : String) (openaiKey paypalClientId paypalSecret : Option String)
  | chat (userId : String) (prompt : Option String)
  | image (userId : String) (prompt : Option String)
  | paypal (userId : String) (amount : Option String)
  | cases (userId : String)

/-- The router: the handler of the request's route. -/
def handle (SECRET_KEY : String) (w : World) (db : Db) : Request → Outcome
  | .keys userId openaiKey paypalClientId paypalSecret =>
    postKeys SECRET_KEY w db userId openaiKey paypalClientId paypalSecret
  | .chat userId prompt => postChat SECRET_KEY w db userId prompt
  | .image userId prompt => postImage SECRET_KEY w db userId prompt
  | .paypal userId amount => postPaypal SECRET_KEY w db userId amount
  | .cases userId => getCases w db userId

/-- The database after a sequence of requests, each served in the world it meets. -/
def run (SECRET_KEY : String) (db : Db) : List (World × Request) → Db
  | [] => db
  | (w, req) :: rest => run SECRET_KEY (handle SECRET_KEY w db req).db rest

/-- The database of a fresh installation. -/
def Db.empty : Db := { keys := [], cases := [] }

/-- A state the server can be in: the database after some sequence of requests on a fresh
installation. -/
def Reachable (SECRET_KEY : String) (db : Db) : Prop :=
  ∃ steps : List (World × Request), run SECRET_KEY Db.empty steps = db

/-! ## The provider SDKs: what one call sends

The handlers build each client with its default options (`new OpenAI({ apiKey })`,
`new paypal.core.PayPalHttpClient(environment)`) and call one method of it.  That method sends
the HTTP request and, when the answer is one the SDK retries, sends it again.  Neither SDK is
part of `server.js`; the definitions follow the request loop of `openai` (version 4, the one
that has `chat.completions.create` and `images.generate`) and `execute` of
`@paypal/checkout-server-sdk`.  The pauses between two sendings are left out. -/

/-- What the server of a provider answers to one sending of a request: a success, with the
value the handler reads from it; an error status, with the `x-should-retry` header when the
server sends one and the message of the error the SDK makes of the answer; or no answer at all
(a connection error or a timeout). -/
inductive HttpAnswer where
  | ok (value : Option String)
  | status (code : Nat) (xShouldRetry : Option Bool) (message : String)
  | connectionError (message : String)
deriving DecidableEq, Repr

/-- The method `shouldRetry(response)` of the `openai` client: the server's `x-should-retry`
header is obeyed; without it the statuses 408, 409, 429 and 500 and above are retried. -/
def OpenAI.shouldRetry (code : Nat) (xShouldRetry : Option Bool) : Bool :=
  match xShouldRetry with
  | some b => b
  | none => code == 408 || code == 409 || code == 429 || decide (500 ≤ code)

/-- The default of the client option `maxRetries`; `new OpenAI({ apiKey })` sets no other. -/
def OpenAI.maxRetries : Nat := 2

/-- The method `makeRequest(options, retriesRemaining)` of the `openai` client, through which
`chat.completions.create` and `images.generate` go.  `server n` is the answer to the sending
number `n`, `sent` the number of sendings so far; the result is what the call resolves to or
the message of the error it rejects with, and the number of sendings after it. -/
def OpenAI.makeRequest (server : Nat → HttpAnswer) :
    Nat → Nat → Except String (Option String) × Nat
  | 0, sent =>
    match server sent with
    | .ok value => (.ok value, sent + 1)
    | .status _ _ message => (.error message, sent + 1)
    | .connectionError message => (.error message, sent + 1)
  | retriesRemaining + 1, sent =>
    match server sent with
    | .ok value => (.ok value, sent + 1)
    | .status code xShouldRetry message =>
      if OpenAI.shouldRetry code xShouldRetry then
        OpenAI.makeRequest server retriesRemaining (sent + 1)
      else (.error message, sent + 1)
    | .connectionError _ => OpenAI.makeRequest server retriesRemaining (sent + 1)

/-- One call of `chat.completions.create` or `images.generate` on a client with the default
options: its result and the number of HTTP requests it sent. -/
def OpenAI.request (server : Nat → HttpAnswer) : Except String (Option String) × Nat :=
  OpenAI.makeRequest server OpenAI.maxRetries 0

/-- The method `execute(request)` of `PayPalHttpClient`: the request is sent; when the answer
is 401 the access token is fetched anew and the request is sent once more, and what comes of
that is the result.  The requests for the access token are not counted. -/
def PayPalHttpClient.execute (server : Nat → HttpAnswer) :
    Except String (Option String) × Nat :=
  match server 0 with
  | .ok value => (.ok value, 1)
  | .status code _ message =>
    if code = 401 then
      match server 1 with
      | .ok value => (.ok value, 2)
      | .status _ _ message2 => (.error message2, 2)
      | .connectionError message2 => (.error message2, 2)
    else (.error message, 1)
  | .connectionError message => (.error message, 1)

/-- The servers behind the three provider calls of the handlers. -/
structure Providers where
  chat : Nat → HttpAnswer
  image : Nat → HttpAnswer
  paypal : Nat → HttpAnswer

/-- The world `w` in which the provider calls have the results the SDK methods get from the
servers `p`. -/
def World.facing (w : World) (p : Providers) : World :=
  { w with
    chatCompletion := (OpenAI.request p.chat).1,
    imageGenerate := (OpenAI.request p.image).1,
    paypalExecute := (PayPalHttpClient.execute p.paypal).1 }

/-- The HTTP requests that one provider call sends to the servers `p`. -/
def ProviderCall.requests (p : Providers) : ProviderCall → Nat
  | .chat _ _ => (OpenAI.request p.chat).2
  | .image _ _ => (OpenAI.request p.image).2
  | .paypal _ _ _ => (PayPalHttpClient.execute p.paypal).2

/-- The HTTP requests that the provider calls of a handler send, in all. -/
def requestsSent (p : Providers) (calls : List ProviderCall) : Nat :=
  (calls.map (ProviderCall.requests p)).sum

/-! ## Sample inputs -/

/-- A salt: the bytes 1 to 8. -/
def sampleSalt : CryptoJS.Salt := ⟨[1, 2, 3, 4, 5, 6, 7, 8], rfl, by decide⟩

/-- A world in which the database and the providers answer. -/
def calmWorld : World :=
  { keyFindOne := none, keyFindOneAndUpdate := none, caseCreate := none, caseFind := none,
    now := 1700000000000, rnd1 := sampleSalt, rnd2 := sampleSalt, rnd3 := sampleSalt,
    chatCompletion := .ok (some "Hallo"),
    imageGenerate := .ok (some "https://images.example/1.png"),
    paypalExecute := .ok (some "ORDER-1") }

/-- A world in which every database operation fails. -/
def databaseDownWorld : World :=
  { calmWorld with
    keyFindOne := some "connect ECONNREFUSED 127.0.0.1:27017",
    keyFindOneAndUpdate := some "connect ECONNREFUSED 127.0.0.1:27017",
    caseCreate := some "connect ECONNREFUSED 127.0.0.1:27017",
    caseFind := some "connect ECONNREFUSED 127.0.0.1:27017" }

/-- The database after user `u1` has registered the secrets `sk-abc`, `client-1`, `pp-secret`
under the key `secret`. -/
def registeredDb : Db :=
  (postKeys "secret" calmWorld Db.empty "u1" (some "sk-abc") (some "client-1")
    (some "pp-secret")).db

/-- The world `calmWorld` with the clock at `t`. -/
def calmWorldAt (t : Nat) : World := { calmWorld with now := t }

/-- The database after four registrations under the key `secret`: user `u1` at the times 1000,
2000 and 3000, user `u2` at the time 1500 in between. -/
def busyDb : Db :=
  run "secret" Db.empty
    [(calmWorldAt 1000, .keys "u1" (some "sk-abc") (some "client-1") (some "pp-secret")),
     (calmWorldAt 1500, .keys "u2" (some "sk-xyz") (some "client-2") (some "pp-other")),
     (calmWorldAt 2000, .keys "u1" (some "sk-def") (some "client-1") (some "pp-secret")),
     (calmWorldAt 3000, .keys "u1" (some "sk-ghi") (some "client-1") (some "pp-secret"))]

/-- A server that answers 503 to every request. -/
def unavailableServer : Nat → HttpAnswer :=
  fun _ => .status 503 none "503 Service Unavailable"

/-- Providers that are all unavailable. -/
def unavailableProviders : Providers :=
  { chat := unavailableServer, image := unavailableServer, paypal := unavailableServer }

/-- A database whose bundle for `u1` holds, in every slot, the encryption under the key
`secret` of the single byte `0xFF`, which is not UTF-8 text. -/
def damagedDb : Db :=
  { keys := [{ userId := "u1",
               openaiKey := "U2FsdGVkX18BAgMEBQYHCLjCSnBV/IINVnATFotOc1k=",
               paypalClientId := "U2FsdGVkX18BAgMEBQYHCLjCSnBV/IINVnATFotOc1k=",
               paypalSecret := "U2FsdGVkX18BAgMEBQYHCLjCSnBV/IINVnATFotOc1k=" }],
    cases := [] }

/-! ## Auxiliary notions of the proofs -/

/-- At most one bundle is stored for each user. -/
def OneBundlePerUser (db : Db) : Prop :=
  ∀ u : String, (db.keys.filter (fun d => d.userId = u)).length ≤ 1

/-- Strictly newer first. -/
def strictlyNewer (a b : CaseSchema) : Prop := b.timestamp < a.timestamp

instance : IsTotal CaseSchema newerFirst := ⟨fun a b => Nat.le_total b.timestamp a.timestamp⟩

instance : IsTrans CaseSchema newerFirst :=
  ⟨fun a b c (hab : b.timestamp ≤ a.timestamp) (hbc : c.timestamp ≤ b.timestamp) =>
    Nat.le_trans hbc hab⟩

instance : IsAntisymm CaseSchema strictlyNewer :=
  ⟨fun a b (hab : b.timestamp < a.timestamp) (hba : a.timestamp < b.timestamp) =>
    absurd hab (Nat.lt_asymm hba)⟩

instance : DecidableEq (Except String String) := fun a b =>
  match a, b with
  | .ok x, .ok y =>
    if h : x = y then isTrue (congrArg Except.ok h)
    else isFalse (fun e => h (Except.ok.inj e))
  | .error x, .error y =>
    if h : x = y then isTrue (congrArg Except.error h)
    else isFalse (fun e => h (Except.error.inj e))
  | .ok _, .error _ => isFalse (fun e => Except.noConfusion e)
  | .error _, .ok _ => isFalse (fun e => Except.noConfusion e)

/-! # Theorems -/

open CryptoJS

namespace CryptoJS

/-! ## UTF-8 -/

theorem char_range (c : Char) : c.toNat < 0xD800 ∨ (0xDFFF < c.toNat ∧ c.toNat < 0x110000) := by
  have h := c.valid
  simp only [UInt32.isValidChar, Nat.isValidChar] at h
  exact h

theorem isCont_low (x : Nat) (h : x < 64) : isCont (0x80 + x) = true := by
  simp only [isCont, Bool.and_eq_true, decide_eq_true_eq]; omega

theorem utf8Go_lead (b : Nat) (rest : Bytes) :
    utf8Go 0 0 0 (b :: rest) =
      if b < 0x80 then (utf8Go 0 0 0 rest).map (fun cs => Char.ofNat b :: cs)
      else if b < 0xC0 then none
      else if b < 0xE0 then utf8Go 1 (b % 32) 0x80 rest
      else if b < 0xF0 then utf8Go 2 (b % 16) 0x800 rest
      else if b < 0xF8 then utf8Go 3 (b % 8) 0x10000 rest
      else none := by
  rw [utf8Go]; simp

theorem utf8Go_last (acc lo x : Nat) (rest : Bytes) (hx : x < 64)
    (h1 : lo ≤ acc * 64 + x) (h2 : acc * 64 + x < 0x110000)
    (h3 : ¬ (0xD800 ≤ acc * 64 + x ∧ acc * 64 + x < 0xE000)) :
    utf8Go 1 acc lo ((0x80 + x) :: rest)
      = (utf8Go 0 0 0 rest).map (fun cs => Char.ofNat (acc * 64 + x) :: cs) := by
  have e : (0x80 + x) % 64 = x := by omega
  rw [utf8Go, if_neg (by omega), if_pos (isCont_low x hx), if_pos rfl, e, if_pos ⟨h1, h2, h3⟩]

theorem utf8Go_cont (need acc lo x : Nat) (rest : Bytes) (hx : x < 64) (hn : 2 ≤ need) :
    utf8Go need acc lo ((0x80 + x) :: rest) = utf8Go (need - 1) (acc * 64 + x) lo rest := by
  have e : (0x80 + x) % 64 = x := by omega
  rw [utf8Go, if_neg (by omega), if_pos (isCont_low x hx), if_neg (by omega), e]

theorem utf8Decode_encodeChar (c : Char) (rest : Bytes) :
    utf8Go 0 0 0 (utf8EncodeChar c.toNat ++ rest)
      = (utf8Go 0 0 0 rest).map (fun cs => c :: cs) := by
  have hr := char_range c
  have hc : Char.ofNat c.toNat = c := Char.ofNat_toNat c
  unfold utf8EncodeChar
  split
  · rename_i h1
    rw [List.singleton_append, utf8Go_lead, if_pos h1, hc]
  · split
    · rename_i h1 h2
      have e4 : (0xC0 + c.toNat / 64) % 32 * 64 + c.toNat % 64 = c.toNat := by omega
      simp only [List.cons_append, List.nil_append]
      rw [utf8Go_lead, if_neg (by omega), if_neg (by omega), if_pos (by omega),
        utf8Go_last _ _ _ _ (by omega) (by omega) (by omega) (by omega), e4, hc]
    · split
      · rename_i h1 h2 h3
        have e4 : ((0xE0 + c.toNat / 4096) % 16 * 64 + c.toNat / 64 % 64) * 64 + c.toNat % 64
            = c.toNat := by omega
        simp only [List.cons_append, List.nil_append]
        rw [utf8Go_lead, if_neg (by omega), if_neg (by omega), if_neg (by omega),
          if_pos (by omega), utf8Go_cont _ _ _ _ _ (by omega) (by omega),
          utf8Go_last _ _ _ _ (by omega) (by omega) (by omega) (by omega), e4, hc]
      · rename_i h1 h2 h3
        have e4 : (((0xF0 + c.toNat / 262144) % 8 * 64 + c.toNat / 4096 % 64) * 64
            + c.toNat / 64 % 64) * 64 + c.toNat % 64 = c.toNat := by
          omega
        simp only [List.cons_append, List.nil_append]
        rw [utf8Go_lead, if_neg (by omega), if_neg (by omega), if_neg (by omega),
          if_neg (by omega), if_pos (by omega), utf8Go_cont _ _ _ _ _ (by omega) (by omega),
          utf8Go_cont _ _ _ _ _ (by omega) (by omega),
          utf8Go_last _ _ _ _ (by omega) (by omega) (by omega) (by omega), e4, hc]

theorem utf8Decode_parse_data (cs : List Char) :
    utf8Decode (cs.flatMap (fun c => utf8EncodeChar c.toNat)) = some cs := by
  unfold utf8Decode
  induction cs with
  | nil => rfl
  | cons c cs ih =>
    show utf8Go 0 0 0 (utf8EncodeChar c.toNat ++ cs.flatMap (fun c => utf8EncodeChar c.toNat)) = _
    rw [utf8Decode_encodeChar, ih]
    rfl

theorem utf8_stringify_parse (s : String) : Utf8.stringify (Utf8.parse s) = .ok s := by
  unfold Utf8.stringify Utf8.parse
  rw [utf8Decode_parse_data]

theorem utf8EncodeChar_lt (c : Char) : ∀ b ∈ utf8EncodeChar c.toNat, b < 256 := by
  have hr := char_range c
  intro b hb
  unfold utf8EncodeChar at hb
  split at hb
  · simp at hb; omega
  · split at hb
    · simp at hb; omega
    · split at hb
      · simp at hb; omega
      · simp at hb; omega

theorem utf8_parse_lt (s : String) : ∀ b ∈ Utf8.parse s, b < 256 := by
  intro b hb
  unfold Utf8.parse at hb
  rw [List.mem_flatMap] at hb
  obtain ⟨c, _, hc⟩ := hb
  exact utf8EncodeChar_lt c b hc

end CryptoJS

namespace CryptoJS

/-! ## Base64 -/

theorem base64_charAt_facts : ∀ v < 64, (Base64.charAt v).toNat < 0x10000
    ∧ (Base64.charAt v).toNat ≠ 61 ∧ Base64.reverseMap (Base64.charAt v).toNat = v := by
  decide

theorem base64_digits_nil : Base64.digits [] = [] := rfl

theorem base64_digits_pad (cs : List Char) : Base64.digits ('=' :: cs) = [] := by
  simp [Base64.digits, codeUnits, List.takeWhile]

theorem base64_digits_charAt (v : Nat) (hv : v < 64) (cs : List Char) :
    Base64.digits (Base64.charAt v :: cs) = v :: Base64.digits cs := by
  obtain ⟨h1, h2, h3⟩ := base64_charAt_facts v hv
  simp only [Base64.digits, codeUnits, List.flatMap_cons, if_pos h1, List.singleton_append]
  rw [List.takeWhile_cons_of_pos (by simpa using h2), List.map_cons, h3]

theorem base64_parseLoop_digits (b : Bytes) (hb : ∀ x ∈ b, x < 256) :
    Base64.parseLoop (Base64.digits (Base64.stringifyChars b)) = b := by
  induction b using Base64.stringifyChars.induct with
  | case1 => rfl
  | case2 a =>
    have ha : a < 256 := hb a (by simp)
    rw [Base64.stringifyChars, base64_digits_charAt _ (by omega), base64_digits_charAt _ (by omega),
      base64_digits_pad, Base64.parseLoop]
    congr 1
    omega
  | case3 a b =>
    have ha : a < 256 := hb a (by simp)
    have hb' : b < 256 := hb b (by simp)
    rw [Base64.stringifyChars, base64_digits_charAt _ (by omega), base64_digits_charAt _ (by omega),
      base64_digits_charAt _ (by omega), base64_digits_pad, Base64.parseLoop]
    congr 1
    · omega
    · congr 1
      omega
  | case4 a b c rest ih =>
    have ha : a < 256 := hb a (by simp)
    have hb' : b < 256 := hb b (by simp)
    have hc : c < 256 := hb c (by simp)
    rw [Base64.stringifyChars, base64_digits_charAt _ (by omega), base64_digits_charAt _ (by omega),
      base64_digits_charAt _ (by omega), base64_digits_charAt _ (by omega), Base64.parseLoop,
      ih (fun x hx => hb x (by simp [hx]))]
    congr 1
    · omega
    · congr 1
      · omega
      · congr 1
        omega

theorem base64_parse_stringify (b : Bytes) (hb : ∀ x ∈ b, x < 256) :
    Base64.parse (Base64.stringify b) = b :=
  base64_parseLoop_digits b hb

theorem base64_length_stringifyChars (b : Bytes) :
    (Base64.stringifyChars b).length = 4 * ((b.length + 2) / 3) := by
  induction b using Base64.stringifyChars.induct with
  | case1 => rfl
  | case2 a => simp [Base64.stringifyChars]
  | case3 a b => simp [Base64.stringifyChars]
  | case4 a b c rest ih =>
    rw [Base64.stringifyChars]
    simp only [List.length_cons, ih]
    omega

/-! ## Pieces of a list -/

theorem chunksAux_append {α : Type} (n : Nat) (hn : 0 < n) (b : List α) (hb : b.length = n)
    (fuel : Nat) (l : List α) :
    chunksAux n (fuel + 1) (b ++ l) = b :: chunksAux n fuel l := by
  have hne : (b ++ l).isEmpty = false := by
    cases b with
    | nil => simp at hb; omega
    | cons x xs => rfl
  rw [chunksAux, hne]
  simp only [Bool.false_eq_true, if_false]
  rw [List.take_left' hb, List.drop_left' hb]

theorem chunksAux_fuel {α : Type} (n : Nat) (hn : 0 < n) (fuel : Nat) :
    ∀ l : List α, l.length ≤ fuel → chunksAux n fuel l = chunksAux n l.length l := by
  induction fuel using Nat.strong_induction_on with
  | _ fuel ih =>
    intro l hl
    cases l with
    | nil => cases fuel <;> rfl
    | cons x xs =>
      cases fuel with
      | zero => simp at hl
      | succ f =>
        have e0 : ((x :: xs).drop n).length = xs.length + 1 - n := by
          rw [List.length_drop, List.length_cons]
        have hl' : xs.length + 1 ≤ f + 1 := by simpa using hl
        have e1 : ((x :: xs).drop n).length ≤ f := by omega
        have e2 : ((x :: xs).drop n).length ≤ xs.length := by omega
        rw [List.length_cons, chunksAux, chunksAux]
        simp only [List.isEmpty_cons, Bool.false_eq_true, if_false]
        rw [ih f (by omega) _ e1]
        by_cases hx : xs.length ≤ f
        · by_cases hlt : xs.length < f + 1
          · rw [ih xs.length (by omega) _ e2]
          · omega
        · omega

theorem chunks_append {α : Type} (n : Nat) (hn : 0 < n) (b l : List α) (hb : b.length = n) :
    chunks n (b ++ l) = b :: chunks n l := by
  unfold chunks
  have e : (b ++ l).length = (l.length + (n - 1)) + 1 := by
    rw [List.length_append, hb]; omega
  rw [e, chunksAux_append n hn b hb, chunksAux_fuel n hn _ l (by omega)]

theorem chunks_nil {α : Type} (n : Nat) : chunks n ([] : List α) = [] := rfl

theorem chunks_flatten {α : Type} (n : Nat) (hn : 0 < n) (bs : List (List α))
    (h : ∀ b ∈ bs, b.length = n) : chunks n bs.flatten = bs := by
  induction bs with
  | nil => rfl
  | cons b bs ih =>
    rw [List.flatten_cons, chunks_append n hn b _ (h b (by simp)), ih (fun x hx => h x (by simp [hx]))]

theorem flatten_chunksAux {α : Type} (n : Nat) (hn : 0 < n) (fuel : Nat) :
    ∀ l : List α, l.length ≤ fuel → (chunksAux n fuel l).flatten = l := by
  induction fuel with
  | zero =>
    intro l hl
    have : l = [] := List.length_eq_zero.1 (by omega)
    subst this; rfl
  | succ f ih =>
    intro l hl
    cases l with
    | nil => rfl
    | cons x xs =>
      rw [chunksAux]
      simp only [List.isEmpty_cons, Bool.false_eq_true, if_false, List.flatten_cons]
      have e0 : ((x :: xs).drop n).length = xs.length + 1 - n := by
        rw [List.length_drop, List.length_cons]
      have hl' : xs.length + 1 ≤ f + 1 := by simpa using hl
      rw [ih _ (by omega), List.take_append_drop]

theorem flatten_chunks {α : Type} (n : Nat) (hn : 0 < n) (l : List α) : (chunks n l).flatten = l :=
  flatten_chunksAux n hn l.length l (Nat.le_refl _)

theorem length_of_mem_chunksAux {α : Type} (n : Nat) (fuel : Nat) :
    ∀ l : List α, l.length % n = 0 → ∀ b ∈ chunksAux n fuel l, b.length = n := by
  induction fuel with
  | zero => intro l _ b hb; simp [chunksAux] at hb
  | succ f ih =>
    intro l hl b hb
    cases l with
    | nil => simp [chunksAux] at hb
    | cons x xs =>
      rw [chunksAux] at hb
      simp only [List.isEmpty_cons, Bool.false_eq_true, if_false, List.mem_cons] at hb
      have hge : n ≤ (x :: xs).length := by
        have : 0 < (x :: xs).length := by simp
        exact Nat.le_of_dvd this (Nat.dvd_of_mod_eq_zero hl)
      rcases hb with hb | hb
      · subst hb
        rw [List.length_take]; omega
      · refine ih _ ?_ b hb
        rw [List.length_drop]
        exact (Nat.sub_mod_eq_zero_of_mod_eq (by rw [hl, Nat.mod_self]))

theorem length_of_mem_chunks {α : Type} (n : Nat) (l : List α)
    (hl : l.length % n = 0) : ∀ b ∈ chunks n l, b.length = n :=
  length_of_mem_chunksAux n l.length l hl

end CryptoJS

namespace CryptoJS

/-! ## The AES block cipher -/

theorem getD_lt (s : List Nat) (n : Nat) (h : ∀ x ∈ s, x < n) (hn : 0 < n) (i : Nat) :
    s.getD i 0 < n := by
  rw [List.getD_eq_getElem?_getD]
  cases hi : s[i]? with
  | none => simpa using hn
  | some v =>
    obtain ⟨hlt, hv⟩ := List.getElem?_eq_some.1 hi
    exact h v (hv ▸ List.getElem_mem hlt)

theorem isBlock_exists_eq {s : Block} (h : IsBlock s) :
    ∃ a0 a1 a2 a3 a4 a5 a6 a7 a8 a9 a10 a11 a12 a13 a14 a15 : Nat, s = [a0, a1, a2, a3, a4, a5, a6, a7, a8, a9, a10, a11, a12, a13, a14, a15] := by
  obtain ⟨hl, _⟩ := h
  match s, hl with
  | [a0, a1, a2, a3, a4, a5, a6, a7, a8, a9, a10, a11, a12, a13, a14, a15], _ => exact ⟨a0, a1, a2, a3, a4, a5, a6, a7, a8, a9, a10, a11, a12, a13, a14, a15, rfl⟩

theorem xtime_lin (a b : Nat) : xtime (a ^^^ b) = xtime a ^^^ xtime b := by
  have h2 : ∀ x : Nat, 2 * x = x <<< 1 := by intro x; rw [Nat.shiftLeft_eq]; omega
  have h256 : (256 : Nat) = 2 ^ 8 := by norm_num
  unfold xtime
  apply Nat.eq_of_testBit_eq
  intro i
  simp only [h2, h256, Nat.testBit_xor, Nat.testBit_mod_two_pow, Nat.testBit_shiftLeft]
  cases ha : a.testBit 7 <;> cases hb : b.testBit 7 <;> simp <;>
    cases (decide (i < 8)) <;> cases (decide (1 ≤ i)) <;> cases (a.testBit (i-1)) <;>
    cases (b.testBit (i-1)) <;> cases (Nat.testBit 27 i) <;> simp

theorem xor_lt_256 {a b : Nat} (ha : a < 256) (hb : b < 256) : a ^^^ b < 256 :=
  Nat.xor_lt_two_pow (n := 8) ha hb

theorem xtime_lt (a : Nat) : xtime a < 256 := by
  unfold xtime
  apply xor_lt_256
  · omega
  · split <;> omega

theorem mul3_lt {a : Nat} (ha : a < 256) : mul3 a < 256 := xor_lt_256 (xtime_lt a) ha
theorem mul9_lt {a : Nat} (ha : a < 256) : mul9 a < 256 := xor_lt_256 (xtime_lt _) ha
theorem mul11_lt {a : Nat} (ha : a < 256) : mul11 a < 256 :=
  xor_lt_256 (xor_lt_256 (xtime_lt _) (xtime_lt _)) ha
theorem mul13_lt {a : Nat} (ha : a < 256) : mul13 a < 256 :=
  xor_lt_256 (xor_lt_256 (xtime_lt _) (xtime_lt _)) ha
theorem mul14_lt (a : Nat) : mul14 a < 256 :=
  xor_lt_256 (xor_lt_256 (xtime_lt _) (xtime_lt _)) (xtime_lt _)

theorem mul3_lin (a b : Nat) : mul3 (a ^^^ b) = mul3 a ^^^ mul3 b := by
  simp only [mul3, xtime_lin]; ac_rfl
theorem mul9_lin (a b : Nat) : mul9 (a ^^^ b) = mul9 a ^^^ mul9 b := by
  simp only [mul9, xtime_lin]; ac_rfl
theorem mul11_lin (a b : Nat) : mul11 (a ^^^ b) = mul11 a ^^^ mul11 b := by
  simp only [mul11, xtime_lin]; ac_rfl
theorem mul13_lin (a b : Nat) : mul13 (a ^^^ b) = mul13 a ^^^ mul13 b := by
  simp only [mul13, xtime_lin]; ac_rfl
theorem mul14_lin (a b : Nat) : mul14 (a ^^^ b) = mul14 a ^^^ mul14 b := by
  simp only [mul14, xtime_lin]; ac_rfl

set_option maxRecDepth 100000 in
theorem gf_identities : ∀ a < 256,
    mul14 (xtime a) ^^^ mul11 a ^^^ mul13 a ^^^ mul9 (mul3 a) = a
    ∧ mul14 (mul3 a) ^^^ mul11 (xtime a) ^^^ mul13 a ^^^ mul9 a = 0
    ∧ mul14 a ^^^ mul11 (mul3 a) ^^^ mul13 (xtime a) ^^^ mul9 a = 0
    ∧ mul14 a ^^^ mul11 a ^^^ mul13 (mul3 a) ^^^ mul9 (xtime a) = 0 := by
  decide!

set_option maxRecDepth 100000 in
theorem sbox_facts : ∀ b < 256, invSbox (sbox b) = b ∧ sbox b < 256 := by
  decide!

set_option maxRecDepth 100000 in
theorem sboxTable_lt : ∀ x ∈ sboxTable, x < 256 := by decide!

theorem sbox_lt (b : Nat) : sbox b < 256 :=
  getD_lt sboxTable 256 sboxTable_lt (by decide) b

theorem invMixColumn_mixColumn (a b c d : Nat) (ha : a < 256) (hb : b < 256) (hc : c < 256)
    (hd : d < 256) :
    invMixColumn (xtime a ^^^ mul3 b ^^^ c ^^^ d) (a ^^^ xtime b ^^^ mul3 c ^^^ d)
      (a ^^^ b ^^^ xtime c ^^^ mul3 d) (mul3 a ^^^ b ^^^ c ^^^ xtime d) = [a, b, c, d] := by
  obtain ⟨a1, a2, a3, a4⟩ := gf_identities a ha
  obtain ⟨b1, b2, b3, b4⟩ := gf_identities b hb
  obtain ⟨c1, c2, c3, c4⟩ := gf_identities c hc
  obtain ⟨d1, d2, d3, d4⟩ := gf_identities d hd
  unfold invMixColumn
  simp only [mul9_lin, mul11_lin, mul13_lin, mul14_lin]
  congr 1
  · calc _ = (mul14 (xtime a) ^^^ mul11 a ^^^ mul13 a ^^^ mul9 (mul3 a))
          ^^^ (mul14 (mul3 b) ^^^ mul11 (xtime b) ^^^ mul13 b ^^^ mul9 b)
          ^^^ (mul14 c ^^^ mul11 (mul3 c) ^^^ mul13 (xtime c) ^^^ mul9 c)
          ^^^ (mul14 d ^^^ mul11 d ^^^ mul13 (mul3 d) ^^^ mul9 (xtime d)) := by ac_rfl
      _ = a := by rw [a1, b2, c3, d4]; simp
  · congr 1
    · calc _ = (mul14 a ^^^ mul11 a ^^^ mul13 (mul3 a) ^^^ mul9 (xtime a))
            ^^^ (mul14 (xtime b) ^^^ mul11 b ^^^ mul13 b ^^^ mul9 (mul3 b))
            ^^^ (mul14 (mul3 c) ^^^ mul11 (xtime c) ^^^ mul13 c ^^^ mul9 c)
            ^^^ (mul14 d ^^^ mul11 (mul3 d) ^^^ mul13 (xtime d) ^^^ mul9 d) := by ac_rfl
        _ = b := by rw [a4, b1, c2, d3]; simp
    · congr 1
      · calc _ = (mul14 a ^^^ mul11 (mul3 a) ^^^ mul13 (xtime a) ^^^ mul9 a)
              ^^^ (mul14 b ^^^ mul11 b ^^^ mul13 (mul3 b) ^^^ mul9 (xtime b))
              ^^^ (mul14 (xtime c) ^^^ mul11 c ^^^ mul13 c ^^^ mul9 (mul3 c))
              ^^^ (mul14 (mul3 d) ^^^ mul11 (xtime d) ^^^ mul13 d ^^^ mul9 d) := by ac_rfl
          _ = c := by rw [a3, b4, c1, d2]; simp
      · congr 1
        calc _ = (mul14 (mul3 a) ^^^ mul11 (xtime a) ^^^ mul13 a ^^^ mul9 a)
              ^^^ (mul14 b ^^^ mul11 (mul3 b) ^^^ mul13 (xtime b) ^^^ mul9 b)
              ^^^ (mul14 c ^^^ mul11 c ^^^ mul13 (mul3 c) ^^^ mul9 (xtime c))
              ^^^ (mul14 (xtime d) ^^^ mul11 d ^^^ mul13 d ^^^ mul9 (mul3 d)) := by ac_rfl
          _ = d := by rw [a2, b3, c4, d1]; simp

theorem mixColumns_eq (a0 a1 a2 a3 a4 a5 a6 a7 a8 a9 a10 a11 a12 a13 a14 a15 : Nat) :
    mixColumns [a0, a1, a2, a3, a4, a5, a6, a7, a8, a9, a10, a11, a12, a13, a14, a15] =
      mixColumn a0 a1 a2 a3 ++ (mixColumn a4 a5 a6 a7 ++ (mixColumn a8 a9 a10 a11
        ++ (mixColumn a12 a13 a14 a15 ++ []))) := rfl

theorem invMixColumns_mixColumns {s : Block} (h : IsBlock s) :
    invMixColumns (mixColumns s) = s := by
  obtain ⟨a0, a1, a2, a3, a4, a5, a6, a7, a8, a9, a10, a11, a12, a13, a14, a15, rfl⟩ := isBlock_exists_eq h
  have hlt : ∀ x ∈ [a0, a1, a2, a3, a4, a5, a6, a7, a8, a9, a10, a11, a12, a13, a14, a15], x < 256 := h.2
  simp only [List.mem_cons, List.mem_singleton, forall_eq_or_imp, forall_eq, List.not_mem_nil,
    false_implies, implies_true, and_true] at hlt
  obtain ⟨h0, h1, h2, h3, h4, h5, h6, h7, h8, h9, h10, h11, h12, h13, h14, h15⟩ := hlt
  have e : invMixColumns (mixColumns [a0, a1, a2, a3, a4, a5, a6, a7, a8, a9, a10, a11, a12, a13, a14, a15]) =
      invMixColumn (xtime a0 ^^^ mul3 a1 ^^^ a2 ^^^ a3) (a0 ^^^ xtime a1 ^^^ mul3 a2 ^^^ a3) (a0 ^^^ a1 ^^^ xtime a2 ^^^ mul3 a3) (mul3 a0 ^^^ a1 ^^^ a2 ^^^ xtime a3)
      ++ (invMixColumn (xtime a4 ^^^ mul3 a5 ^^^ a6 ^^^ a7) (a4 ^^^ xtime a5 ^^^ mul3 a6 ^^^ a7) (a4 ^^^ a5 ^^^ xtime a6 ^^^ mul3 a7) (mul3 a4 ^^^ a5 ^^^ a6 ^^^ xtime a7)
      ++ (invMixColumn (xtime a8 ^^^ mul3 a9 ^^^ a10 ^^^ a11) (a8 ^^^ xtime a9 ^^^ mul3 a10 ^^^ a11) (a8 ^^^ a9 ^^^ xtime a10 ^^^ mul3 a11) (mul3 a8 ^^^ a9 ^^^ a10 ^^^ xtime a11)
      ++ (invMixColumn (xtime a12 ^^^ mul3 a13 ^^^ a14 ^^^ a15) (a12 ^^^ xtime a13 ^^^ mul3 a14 ^^^ a15) (a12 ^^^ a13 ^^^ xtime a14 ^^^ mul3 a15) (mul3 a12 ^^^ a13 ^^^ a14 ^^^ xtime a15) ++ []))) := rfl
  rw [e, invMixColumn_mixColumn a0 a1 a2 a3 h0 h1 h2 h3, invMixColumn_mixColumn a4 a5 a6 a7 h4 h5 h6 h7,
    invMixColumn_mixColumn a8 a9 a10 a11 h8 h9 h10 h11,
    invMixColumn_mixColumn a12 a13 a14 a15 h12 h13 h14 h15]
  rfl

theorem invShiftRows_shiftRows {s : Block} (h : IsBlock s) : invShiftRows (shiftRows s) = s := by
  obtain ⟨a0, a1, a2, a3, a4, a5, a6, a7, a8, a9, a10, a11, a12, a13, a14, a15, rfl⟩ := isBlock_exists_eq h
  rfl

theorem invSubBytes_subBytes {s : Block} (h : IsBlock s) : invSubBytes (subBytes s) = s := by
  unfold invSubBytes subBytes
  rw [List.map_map]
  conv_rhs => rw [← List.map_id s]
  apply List.map_congr_left
  intro x hx
  exact (sbox_facts x (h.2 x hx)).1

theorem roundKeyByte_lt (ws : List Nat) (r i : Nat) : roundKeyByte ws r i < 256 :=
  Nat.mod_lt _ (by decide)

theorem addRoundKey_addRoundKey (ws : List Nat) (r : Nat) {s : Block} (h : IsBlock s) :
    addRoundKey ws r (addRoundKey ws r s) = s := by
  obtain ⟨a0, a1, a2, a3, a4, a5, a6, a7, a8, a9, a10, a11, a12, a13, a14, a15, rfl⟩ := isBlock_exists_eq h
  have e : addRoundKey ws r (addRoundKey ws r [a0, a1, a2, a3, a4, a5, a6, a7, a8, a9, a10, a11, a12, a13, a14, a15]) =
      [a0 ^^^ roundKeyByte ws r 0 ^^^ roundKeyByte ws r 0, a1 ^^^ roundKeyByte ws r 1 ^^^ roundKeyByte ws r 1, a2 ^^^ roundKeyByte ws r 2 ^^^ roundKeyByte ws r 2, a3 ^^^ roundKeyByte ws r 3 ^^^ roundKeyByte ws r 3, a4 ^^^ roundKeyByte ws r 4 ^^^ roundKeyByte ws r 4, a5 ^^^ roundKeyByte ws r 5 ^^^ roundKeyByte ws r 5, a6 ^^^ roundKeyByte ws r 6 ^^^ roundKeyByte ws r 6, a7 ^^^ roundKeyByte ws r 7 ^^^ roundKeyByte ws r 7, a8 ^^^ roundKeyByte ws r 8 ^^^ roundKeyByte ws r 8, a9 ^^^ roundKeyByte ws r 9 ^^^ roundKeyByte ws r 9, a10 ^^^ roundKeyByte ws r 10 ^^^ roundKeyByte ws r 10, a11 ^^^ roundKeyByte ws r 11 ^^^ roundKeyByte ws r 11, a12 ^^^ roundKeyByte ws r 12 ^^^ roundKeyByte ws r 12, a13 ^^^ roundKeyByte ws r 13 ^^^ roundKeyByte ws r 13, a14 ^^^ roundKeyByte ws r 14 ^^^ roundKeyByte ws r 14, a15 ^^^ roundKeyByte ws r 15 ^^^ roundKeyByte ws r 15] := rfl
  rw [e]
  simp only [Nat.xor_cancel_right]

theorem isBlock_addRoundKey (ws : List Nat) (r : Nat) {s : Block} (h : IsBlock s) :
    IsBlock (addRoundKey ws r s) := by
  refine ⟨by simp [addRoundKey], ?_⟩
  intro x hx
  simp only [addRoundKey, List.mem_map] at hx
  obtain ⟨i, _, rfl⟩ := hx
  exact xor_lt_256 (getD_lt s 256 h.2 (by decide) i) (roundKeyByte_lt ws r i)

theorem isBlock_subBytes {s : Block} (h : IsBlock s) : IsBlock (subBytes s) := by
  refine ⟨by simp [subBytes, h.1], ?_⟩
  intro x hx
  simp only [subBytes, List.mem_map] at hx
  obtain ⟨i, _, rfl⟩ := hx
  exact sbox_lt i

theorem isBlock_shiftRows {s : Block} (h : IsBlock s) : IsBlock (shiftRows s) := by
  refine ⟨by simp [shiftRows], ?_⟩
  intro x hx
  simp only [shiftRows, List.mem_map] at hx
  obtain ⟨i, _, rfl⟩ := hx
  exact getD_lt s 256 h.2 (by decide) i

theorem mixColumn_lt {a b c d : Nat} (ha : a < 256) (hb : b < 256) (hc : c < 256) (hd : d < 256) :
    ∀ x ∈ mixColumn a b c d, x < 256 := by
  intro x hx
  simp only [mixColumn, List.mem_cons, List.mem_singleton, List.not_mem_nil, or_false] at hx
  rcases hx with rfl | rfl | rfl | rfl
  · exact xor_lt_256 (xor_lt_256 (xor_lt_256 (xtime_lt _) (mul3_lt hb)) hc) hd
  · exact xor_lt_256 (xor_lt_256 (xor_lt_256 ha (xtime_lt _)) (mul3_lt hc)) hd
  · exact xor_lt_256 (xor_lt_256 (xor_lt_256 ha hb) (xtime_lt _)) (mul3_lt hd)
  · exact xor_lt_256 (xor_lt_256 (xor_lt_256 (mul3_lt ha) hb) hc) (xtime_lt _)

theorem isBlock_mixColumns {s : Block} (h : IsBlock s) : IsBlock (mixColumns s) := by
  refine ⟨rfl, ?_⟩
  intro x hx
  simp only [mixColumns, List.mem_flatMap] at hx
  obtain ⟨j, _, hx⟩ := hx
  exact mixColumn_lt (getD_lt s 256 h.2 (by decide) _) (getD_lt s 256 h.2 (by decide) _)
    (getD_lt s 256 h.2 (by decide) _) (getD_lt s 256 h.2 (by decide) _) x hx

theorem isBlock_encRound (ws : List Nat) (r : Nat) {s : Block} (h : IsBlock s) :
    IsBlock (encRound ws s r) :=
  isBlock_addRoundKey ws r (isBlock_mixColumns (isBlock_shiftRows (isBlock_subBytes h)))

theorem decRound_encRound (ws : List Nat) (r : Nat) {s : Block} (h : IsBlock s) :
    decRound ws (encRound ws s r) r = s := by
  unfold decRound encRound
  have h1 := isBlock_subBytes h
  have h2 := isBlock_shiftRows h1
  rw [addRoundKey_addRoundKey ws r (isBlock_mixColumns h2), invMixColumns_mixColumns h2,
    invShiftRows_shiftRows h1, invSubBytes_subBytes h]

theorem isBlock_foldl_encRound (ws : List Nat) (rs : List Nat) :
    ∀ {s : Block}, IsBlock s → IsBlock (rs.foldl (encRound ws) s) := by
  induction rs with
  | nil => intro s h; exact h
  | cons r rs ih => intro s h; exact ih (isBlock_encRound ws r h)

theorem foldl_decRound_encRound (ws : List Nat) (rs : List Nat) :
    ∀ {s : Block}, IsBlock s →
      rs.reverse.foldl (decRound ws) (rs.foldl (encRound ws) s) = s := by
  induction rs with
  | nil => intro s _; rfl
  | cons r rs ih =>
    intro s h
    simp only [List.reverse_cons, List.foldl_append, List.foldl_cons, List.foldl_nil]
    rw [ih (isBlock_encRound ws r h)]
    exact decRound_encRound ws r h

theorem decryptBlock_encryptBlock (ws : List Nat) {s : Block} (h : IsBlock s) :
    decryptBlock ws (encryptBlock ws s) = s := by
  unfold decryptBlock encryptBlock
  have h0 := isBlock_addRoundKey ws 0 h
  have h1 := isBlock_foldl_encRound ws (List.range' 1 13) h0
  have h2 := isBlock_subBytes h1
  rw [addRoundKey_addRoundKey ws 14 (isBlock_shiftRows h2), invShiftRows_shiftRows h2,
    invSubBytes_subBytes h1, foldl_decRound_encRound ws _ h0, addRoundKey_addRoundKey ws 0 h]

theorem isBlock_encryptBlock (ws : List Nat) {s : Block} (h : IsBlock s) :
    IsBlock (encryptBlock ws s) :=
  isBlock_addRoundKey ws 14 (isBlock_shiftRows (isBlock_subBytes
    (isBlock_foldl_encRound ws (List.range' 1 13) (isBlock_addRoundKey ws 0 h))))

end CryptoJS

namespace CryptoJS

/-! ## CBC mode and padding -/

theorem xorBlock_xorBlock {a : Block} (h : IsBlock a) (b : Block) :
    xorBlock (xorBlock a b) b = a := by
  obtain ⟨a0, a1, a2, a3, a4, a5, a6, a7, a8, a9, a10, a11, a12, a13, a14, a15, rfl⟩ := isBlock_exists_eq h
  have e : xorBlock (xorBlock [a0, a1, a2, a3, a4, a5, a6, a7, a8, a9, a10, a11, a12, a13, a14, a15] b) b =
      [a0 ^^^ b.getD 0 0 ^^^ b.getD 0 0, a1 ^^^ b.getD 1 0 ^^^ b.getD 1 0, a2 ^^^ b.getD 2 0 ^^^ b.getD 2 0, a3 ^^^ b.getD 3 0 ^^^ b.getD 3 0, a4 ^^^ b.getD 4 0 ^^^ b.getD 4 0, a5 ^^^ b.getD 5 0 ^^^ b.getD 5 0, a6 ^^^ b.getD 6 0 ^^^ b.getD 6 0, a7 ^^^ b.getD 7 0 ^^^ b.getD 7 0, a8 ^^^ b.getD 8 0 ^^^ b.getD 8 0, a9 ^^^ b.getD 9 0 ^^^ b.getD 9 0, a10 ^^^ b.getD 10 0 ^^^ b.getD 10 0, a11 ^^^ b.getD 11 0 ^^^ b.getD 11 0, a12 ^^^ b.getD 12 0 ^^^ b.getD 12 0, a13 ^^^ b.getD 13 0 ^^^ b.getD 13 0, a14 ^^^ b.getD 14 0 ^^^ b.getD 14 0, a15 ^^^ b.getD 15 0 ^^^ b.getD 15 0] := rfl
  rw [e]
  simp only [Nat.xor_cancel_right]

theorem isBlock_xorBlock {a b : Block} (ha : ∀ x ∈ a, x < 256) (hb : ∀ x ∈ b, x < 256) :
    IsBlock (xorBlock a b) := by
  refine ⟨by simp [xorBlock], ?_⟩
  intro x hx
  simp only [xorBlock, List.mem_map] at hx
  obtain ⟨i, _, rfl⟩ := hx
  exact xor_lt_256 (getD_lt a 256 ha (by decide) i) (getD_lt b 256 hb (by decide) i)

theorem zeroFill_eq {s : Block} (h : IsBlock s) : zeroFill s = s := by
  obtain ⟨a0, a1, a2, a3, a4, a5, a6, a7, a8, a9, a10, a11, a12, a13, a14, a15, rfl⟩ := isBlock_exists_eq h
  rfl

theorem cbcDecrypt_cbcEncrypt (ws : List Nat) (bs : List Block) :
    ∀ iv : Block, (∀ x ∈ iv, x < 256) → (∀ b ∈ bs, IsBlock b) →
      cbcDecrypt ws iv (cbcEncrypt ws iv bs) = bs := by
  induction bs with
  | nil => intro iv _ _; rfl
  | cons b bs ih =>
    intro iv hiv hbs
    have hb : IsBlock b := hbs b (by simp)
    have hx : IsBlock (xorBlock b iv) := isBlock_xorBlock hb.2 hiv
    have hc : IsBlock (encryptBlock ws (xorBlock b iv)) := isBlock_encryptBlock ws hx
    simp only [cbcEncrypt, cbcDecrypt]
    rw [zeroFill_eq hc, decryptBlock_encryptBlock ws hx, xorBlock_xorBlock hb,
      ih _ hc.2 (fun x hx => hbs x (by simp [hx]))]

theorem isBlock_of_mem_cbcEncrypt (ws : List Nat) (bs : List Block) :
    ∀ iv : Block, (∀ x ∈ iv, x < 256) → (∀ b ∈ bs, IsBlock b) →
      ∀ c ∈ cbcEncrypt ws iv bs, IsBlock c := by
  induction bs with
  | nil => intro iv _ _ c hc; simp [cbcEncrypt] at hc
  | cons b bs ih =>
    intro iv hiv hbs c hc
    have hb : IsBlock b := hbs b (by simp)
    have hx : IsBlock (xorBlock b iv) := isBlock_xorBlock hb.2 hiv
    have hc2 : IsBlock (encryptBlock ws (xorBlock b iv)) := isBlock_encryptBlock ws hx
    simp only [cbcEncrypt, List.mem_cons] at hc
    rcases hc with rfl | hc
    · exact hc2
    · exact ih _ hc2.2 (fun x hx => hbs x (by simp [hx])) c hc

theorem length_flatten_of_isBlock (bs : List Block) (h : ∀ b ∈ bs, IsBlock b) :
    bs.flatten.length = 16 * bs.length := by
  induction bs with
  | nil => rfl
  | cons b bs ih =>
    rw [List.flatten_cons, List.length_append, (h b (by simp)).1,
      ih (fun x hx => h x (by simp [hx])), List.length_cons]
    omega

theorem length_cbcEncrypt (ws : List Nat) (bs : List Block) :
    ∀ iv : Block, (cbcEncrypt ws iv bs).length = bs.length := by
  induction bs with
  | nil => intro iv; rfl
  | cons b bs ih => intro iv; simp [cbcEncrypt, ih]

theorem pkcs7_length_pad (data : Bytes) :
    (Pkcs7.pad data).length = data.length + (16 - data.length % 16) := by
  simp [Pkcs7.pad]

theorem pkcs7_length_pad_mod (data : Bytes) : (Pkcs7.pad data).length % 16 = 0 := by
  rw [pkcs7_length_pad]; omega

theorem pkcs7_pad_lt (data : Bytes) (h : ∀ x ∈ data, x < 256) : ∀ x ∈ Pkcs7.pad data, x < 256 := by
  intro x hx
  simp only [Pkcs7.pad, List.mem_append, List.mem_replicate] at hx
  rcases hx with hx | ⟨_, rfl⟩
  · exact h x hx
  · omega

theorem pkcs7_unpad_pad (data : Bytes) :
    Pkcs7.unpad (Pkcs7.pad data) (Pkcs7.pad data).length = data := by
  have hl := pkcs7_length_pad data
  have hm := pkcs7_length_pad_mod data
  have hne : (Pkcs7.pad data).length ≠ 0 := by omega
  have hidx : ((Pkcs7.pad data).length - 1) / 4 * 4 + 3 = (Pkcs7.pad data).length - 1 := by omega
  unfold Pkcs7.unpad
  rw [if_neg hne, hidx]
  have hget : (Pkcs7.pad data).getD ((Pkcs7.pad data).length - 1) 0 = 16 - data.length % 16 := by
    rw [List.getD_eq_getElem?_getD, hl]
    unfold Pkcs7.pad
    rw [List.getElem?_append_right (by omega), List.getElem?_replicate]
    rw [if_pos (by omega)]
    rfl
  simp only [hget]
  rw [hl]
  unfold Pkcs7.pad
  have e : data.length + (16 - data.length % 16) - (16 - data.length % 16) = data.length := by
    omega
  rw [e, List.take_left' rfl]

theorem isBlock_of_mem_chunks_pad (data : Bytes) (h : ∀ x ∈ data, x < 256) :
    ∀ b ∈ chunks 16 (Pkcs7.pad data), IsBlock b := by
  intro b hb
  refine ⟨length_of_mem_chunks 16 _ (pkcs7_length_pad_mod data) b hb, ?_⟩
  intro x hx
  apply pkcs7_pad_lt data h
  rw [← flatten_chunks 16 (by decide) (Pkcs7.pad data)]
  exact List.mem_flatten.2 ⟨b, hb, hx⟩

/-! ## The derived key and the OpenSSL format -/

theorem wordToBytesLE_lt (w : Nat) : ∀ x ∈ wordToBytesLE w, x < 256 := by
  intro x hx
  simp only [wordToBytesLE, List.mem_cons, List.mem_singleton, List.not_mem_nil, or_false] at hx
  rcases hx with rfl | rfl | rfl | rfl <;> omega

theorem MD5_lt (msg : Bytes) : ∀ x ∈ MD5 msg, x < 256 := by
  intro x hx
  simp only [MD5, List.mem_append] at hx
  rcases hx with ((hx | hx) | hx) | hx <;> exact wordToBytesLE_lt _ x hx

theorem EvpKDF_lt (password salt : Bytes) : ∀ x ∈ EvpKDF password salt, x < 256 := by
  intro x hx
  simp only [EvpKDF, List.mem_append] at hx
  rcases hx with (hx | hx) | hx <;> exact MD5_lt _ x hx

theorem kdf_iv_lt (password : String) (salt : Bytes) :
    ∀ x ∈ (OpenSSLKdf.execute password salt).iv, x < 256 := by
  intro x hx
  exact EvpKDF_lt _ _ x (List.mem_of_mem_drop (List.mem_of_mem_take hx))

theorem saltedPrefix_lt : ∀ x ∈ saltedPrefix, x < 256 := by decide

theorem openssl_parse_stringify (ct : Bytes) (salt : Salt) (hct : ∀ x ∈ ct, x < 256) :
    OpenSSL.parse (OpenSSL.stringify { ciphertext := ct, salt := some salt.bytes })
      = { ciphertext := ct, salt := some salt.bytes } := by
  have hlt : ∀ x ∈ saltedPrefix ++ salt.bytes ++ ct, x < 256 := by
    intro x hx
    simp only [List.mem_append] at hx
    rcases hx with (hx | hx) | hx
    · exact saltedPrefix_lt x hx
    · exact salt.lt x hx
    · exact hct x hx
  have hp : saltedPrefix.length = 8 := rfl
  have h1 : (saltedPrefix ++ salt.bytes ++ ct).take 8 = saltedPrefix := by
    rw [List.append_assoc, List.take_left' hp]
  have h2 : (saltedPrefix ++ salt.bytes ++ ct).drop 16 = ct := by
    rw [List.drop_left' (by rw [List.length_append, hp, salt.length_eq])]
  have h3 : ((saltedPrefix ++ salt.bytes ++ ct).drop 8).take 8 = salt.bytes := by
    rw [List.append_assoc, List.drop_left' hp, List.take_left' salt.length_eq]
  have h4 : wholeWords salt.bytes = salt.bytes := by
    simp [wholeWords, salt.length_eq]
  simp only [OpenSSL.stringify, OpenSSL.parse]
  rw [base64_parse_stringify _ hlt, if_pos h1, h2, h3, h4]

/-! ## The library round trip -/

theorem messageBytes_lt (message : Option String) : ∀ y ∈ messageBytes message, y < 256 := by
  cases message with
  | none => intro y hy; simp [messageBytes] at hy
  | some m => exact utf8_parse_lt m

theorem aes_encrypt_ciphertext (rnd : Salt) (message : Option String) (passphrase : String) :
    (AES.encrypt rnd message passphrase).ciphertext
      = (cbcEncrypt (keySchedule (OpenSSLKdf.execute passphrase rnd.bytes).key)
          (OpenSSLKdf.execute passphrase rnd.bytes).iv
          (chunks 16 (Pkcs7.pad (messageBytes message)))).flatten := rfl

theorem aes_encrypt_blocks (rnd : Salt) (message : Option String) (passphrase : String) :
    ∀ c ∈ cbcEncrypt (keySchedule (OpenSSLKdf.execute passphrase rnd.bytes).key)
          (OpenSSLKdf.execute passphrase rnd.bytes).iv
          (chunks 16 (Pkcs7.pad (messageBytes message))), IsBlock c :=
  isBlock_of_mem_cbcEncrypt _ _ _ (kdf_iv_lt _ _)
    (isBlock_of_mem_chunks_pad _ (messageBytes_lt message))

theorem aes_encrypt_ciphertext_lt (rnd : Salt) (message : Option String) (passphrase : String) :
    ∀ x ∈ (AES.encrypt rnd message passphrase).ciphertext, x < 256 := by
  intro x hx
  rw [aes_encrypt_ciphertext] at hx
  obtain ⟨c, hc, hxc⟩ := List.mem_flatten.1 hx
  exact (aes_encrypt_blocks rnd message passphrase c hc).2 x hxc

theorem aes_length_encrypt_ciphertext (rnd : Salt) (message : Option String)
    (passphrase : String) :
    (AES.encrypt rnd message passphrase).ciphertext.length
      = (Pkcs7.pad (messageBytes message)).length := by
  rw [aes_encrypt_ciphertext,
    length_flatten_of_isBlock _ (aes_encrypt_blocks rnd message passphrase), length_cbcEncrypt]
  conv_rhs => rw [← flatten_chunks 16 (by decide) (Pkcs7.pad (messageBytes message))]
  rw [length_flatten_of_isBlock _ (isBlock_of_mem_chunks_pad _ (messageBytes_lt message))]

theorem aes_decrypt_encrypt (rnd rnd2 : Salt) (message : Option String) (passphrase : String) :
    AES.decrypt rnd2 (OpenSSL.stringify (AES.encrypt rnd message passphrase)) passphrase
      = messageBytes message := by
  have hparse := openssl_parse_stringify _ rnd (aes_encrypt_ciphertext_lt rnd message passphrase)
  have e : OpenSSL.stringify (AES.encrypt rnd message passphrase)
      = OpenSSL.stringify { ciphertext := (AES.encrypt rnd message passphrase).ciphertext,
                            salt := some rnd.bytes } := rfl
  unfold AES.decrypt
  rw [e, hparse]
  simp only [Option.getD_some]
  rw [aes_length_encrypt_ciphertext, aes_encrypt_ciphertext, chunks_flatten 16 (by decide) _
    (fun b hb => (aes_encrypt_blocks rnd message passphrase b hb).1),
    cbcDecrypt_cbcEncrypt _ _ _ (kdf_iv_lt _ _)
      (isBlock_of_mem_chunks_pad _ (messageBytes_lt message)),
    flatten_chunks 16 (by decide), pkcs7_unpad_pad]

end CryptoJS

theorem decrypt_encrypt (SECRET_KEY : String) (rnd rnd2 : CryptoJS.Salt) (text : Option String) :
    decrypt SECRET_KEY rnd2 (encrypt SECRET_KEY rnd text) = .ok (text.getD "") := by
  unfold decrypt encrypt
  simp only []
  rw [CryptoJS.aes_decrypt_encrypt]
  cases text with
  | none => rfl
  | some m => exact CryptoJS.utf8_stringify_parse m

/-! ## The ciphertext is longer than the plaintext -/

theorem length_flatMap_ge {α β : Type} (f : α → List β) (h : ∀ a, 1 ≤ (f a).length)
    (l : List α) : l.length ≤ (l.flatMap f).length := by
  induction l with
  | nil => simp
  | cons a l ih =>
    rw [List.flatMap_cons, List.length_append, List.length_cons]
    have := h a
    omega

theorem length_utf8EncodeChar (c : Nat) : 1 ≤ (utf8EncodeChar c).length := by
  unfold utf8EncodeChar
  split
  · simp
  · split
    · simp
    · split <;> simp

theorem utf8_length_parse (s : String) : s.length ≤ (Utf8.parse s).length :=
  length_flatMap_ge (fun c : Char => utf8EncodeChar c.toNat)
    (fun c => length_utf8EncodeChar c.toNat) s.data

theorem length_encrypt (SECRET_KEY : String) (rnd : Salt) (text : Option String) :
    (encrypt SECRET_KEY rnd text).length
      = 4 * ((16 + (messageBytes text).length + (16 - (messageBytes text).length % 16) + 2) / 3) := by
  have e : encrypt SECRET_KEY rnd text
      = String.mk (Base64.stringifyChars (saltedPrefix ++ rnd.bytes
          ++ (AES.encrypt rnd text SECRET_KEY).ciphertext)) := rfl
  rw [e, String.length_mk, base64_length_stringifyChars, List.length_append, List.length_append,
    aes_length_encrypt_ciphertext, pkcs7_length_pad, rnd.length_eq]
  have hp : saltedPrefix.length = 8 := rfl
  rw [hp]
  congr 2
  omega

theorem encrypt_ne_plaintext (SECRET_KEY : String) (rnd : Salt) (s : String) :
    encrypt SECRET_KEY rnd (some s) ≠ s := by
  intro h
  have h1 := length_encrypt SECRET_KEY rnd (some s)
  rw [h] at h1
  have h2 : s.length ≤ (messageBytes (some s)).length := utf8_length_parse s
  omega

/-! ## The `Key` collection -/

theorem key_findOne_eq_none (db : Db) (userId : String) (h : ∀ d ∈ db.keys, d.userId ≠ userId) :
    Key.findOne db userId = none := by
  unfold Key.findOne
  rw [List.find?_eq_none]
  intro d hd
  simpa using h d hd

theorem key_find_upsert (userId : String) (doc : KeySchema) (hdoc : doc.userId = userId)
    (ks : List KeySchema) :
    (Key.upsert userId doc ks).find? (fun d => d.userId = userId) = some doc := by
  induction ks with
  | nil => simp [Key.upsert, hdoc]
  | cons d ds ih =>
    unfold Key.upsert
    split
    · simp [hdoc]
    · rename_i hne
      rw [List.find?_cons_of_neg _ (by simpa using hne)]
      exact ih

theorem key_filter_upsert_self (userId : String) (doc : KeySchema) (hdoc : doc.userId = userId)
    (ks : List KeySchema) :
    (Key.upsert userId doc ks).filter (fun d => d.userId = userId)
      = doc :: (ks.filter (fun d => d.userId = userId)).tail := by
  induction ks with
  | nil => simp [Key.upsert, hdoc]
  | cons d ds ih =>
    unfold Key.upsert
    split
    · rename_i heq
      simp [hdoc, heq]
    · rename_i hne
      rw [List.filter_cons_of_neg (by simpa using hne), List.filter_cons_of_neg (by simpa using hne)]
      exact ih

theorem key_filter_upsert_other (userId other : String) (doc : KeySchema) (hdoc : doc.userId = userId)
    (hne : other ≠ userId) (ks : List KeySchema) :
    (Key.upsert userId doc ks).filter (fun d => d.userId = other)
      = ks.filter (fun d => d.userId = other) := by
  induction ks with
  | nil =>
    have : ¬ doc.userId = other := by rw [hdoc]; exact fun h => hne h.symm
    simp [Key.upsert, this]
  | cons d ds ih =>
    unfold Key.upsert
    split
    · rename_i heq
      have h1 : ¬ doc.userId = other := by rw [hdoc]; exact fun h => hne h.symm
      have h2 : ¬ d.userId = other := by rw [heq]; exact fun h => hne h.symm
      rw [List.filter_cons_of_neg (by simpa using h1), List.filter_cons_of_neg (by simpa using h2)]
    · by_cases hd : d.userId = other
      · rw [List.filter_cons_of_pos (by simpa using hd), List.filter_cons_of_pos (by simpa using hd), ih]
      · rw [List.filter_cons_of_neg (by simpa using hd), List.filter_cons_of_neg (by simpa using hd), ih]

theorem oneBundle_upsert {db : Db} (h : OneBundlePerUser db) (userId : String)
    (doc : KeySchema) (hdoc : doc.userId = userId) :
    OneBundlePerUser (Key.findOneAndUpdate db userId doc) := by
  intro u
  by_cases hu : u = userId
  · subst hu
    have := h u
    simp only [Key.findOneAndUpdate]
    rw [key_filter_upsert_self u doc hdoc, List.length_cons, List.length_tail]
    omega
  · simp only [Key.findOneAndUpdate]
    rw [key_filter_upsert_other userId u doc hdoc hu]
    exact h u

theorem handle_keys (SECRET_KEY : String) (w : World) (db : Db) (req : Request) :
    (handle SECRET_KEY w db req).db.keys = db.keys
    ∨ ∃ userId doc, doc.userId = userId
        ∧ (handle SECRET_KEY w db req).db.keys = Key.upsert userId doc db.keys := by
  cases req with
  | keys userId a b c =>
    simp only [handle, postKeys]
    cases w.keyFindOneAndUpdate with
    | some e => left; rfl
    | none =>
      right
      refine ⟨userId, KeySchema.mk userId (encrypt SECRET_KEY w.rnd1 a)
        (encrypt SECRET_KEY w.rnd2 b) (encrypt SECRET_KEY w.rnd3 c), rfl, ?_⟩
      cases w.caseCreate <;> rfl
  | chat userId prompt =>
    left
    simp only [handle, postChat]
    repeat' split
    all_goals rfl
  | image userId prompt =>
    left
    simp only [handle, postImage]
    repeat' split
    all_goals rfl
  | paypal userId amount =>
    left
    simp only [handle, postPaypal]
    repeat' split
    all_goals rfl
  | cases userId =>
    left
    simp only [handle, getCases]
    repeat' split
    all_goals rfl

theorem oneBundle_handle {db : Db} (h : OneBundlePerUser db) (SECRET_KEY : String)
    (w : World) (req : Request) : OneBundlePerUser (handle SECRET_KEY w db req).db := by
  rcases handle_keys SECRET_KEY w db req with hk | ⟨userId, doc, hdoc, hk⟩
  · intro u; rw [hk]; exact h u
  · intro u
    rw [hk]
    exact oneBundle_upsert h userId doc hdoc u

theorem oneBundle_run (SECRET_KEY : String) (steps : List (World × Request)) :
    ∀ {db : Db}, OneBundlePerUser db → OneBundlePerUser (run SECRET_KEY db steps) := by
  induction steps with
  | nil => intro db h; exact h
  | cons s rest ih =>
    intro db h
    obtain ⟨w, req⟩ := s
    exact ih (oneBundle_handle h SECRET_KEY w req)

theorem reachable_oneBundle {SECRET_KEY : String} {db : Db}
    (h : Reachable SECRET_KEY db) : OneBundlePerUser db := by
  obtain ⟨steps, rfl⟩ := h
  exact oneBundle_run SECRET_KEY steps (fun _ => by simp [Db.empty])

/-! ## The `Case` collection -/

theorem handle_cases (SECRET_KEY : String) (w : World) (db : Db) (req : Request) :
    (handle SECRET_KEY w db req).db.cases = db.cases
    ∨ ∃ c, (handle SECRET_KEY w db req).db.cases = db.cases ++ [c] := by
  cases req with
  | keys userId a b c =>
    simp only [handle, postKeys]
    cases w.keyFindOneAndUpdate with
    | some e => left; rfl
    | none =>
      cases w.caseCreate with
      | some e => left; rfl
      | none => right; exact ⟨_, rfl⟩
  | chat userId prompt =>
    simp only [handle, postChat]
    repeat' split
    all_goals first | (left; rfl) | (right; exact ⟨_, rfl⟩)
  | image userId prompt =>
    simp only [handle, postImage]
    repeat' split
    all_goals first | (left; rfl) | (right; exact ⟨_, rfl⟩)
  | paypal userId amount =>
    simp only [handle, postPaypal]
    repeat' split
    all_goals first | (left; rfl) | (right; exact ⟨_, rfl⟩)
  | cases userId =>
    left
    simp only [handle, getCases]
    repeat' split
    all_goals rfl

theorem registeredDb_eq : registeredDb =
    { keys := [{ userId := "u1",
                 openaiKey := encrypt "secret" sampleSalt (some "sk-abc"),
                 paypalClientId := encrypt "secret" sampleSalt (some "client-1"),
                 paypalSecret := encrypt "secret" sampleSalt (some "pp-secret") }],
      cases := [{ userId := "u1", type := "key_update",
                  details := [("message", some "Schlüssel aktualisiert")],
                  timestamp := 1700000000000 }] } := rfl

theorem registeredDb_findOne : Key.findOne registeredDb "u1" =
    some { userId := "u1",
           openaiKey := encrypt "secret" sampleSalt (some "sk-abc"),
           paypalClientId := encrypt "secret" sampleSalt (some "client-1"),
           paypalSecret := encrypt "secret" sampleSalt (some "pp-secret") } := by
  rw [registeredDb_eq]
  simp [Key.findOne]

theorem registeredDb_reachable : Reachable "secret" registeredDb :=
  ⟨[(calmWorld, .keys "u1" (some "sk-abc") (some "client-1") (some "pp-secret"))], rfl⟩

/-! ## Evaluations of the cipher helpers -/

set_option maxRecDepth 1000000 in
/-- The ciphertext of `sk-abc` under the key `secret` and the salt `01 02 .. 08`: the header
`Salted__`, the salt and the block that `openssl enc -aes-256-cbc -md md5 -S 0102030405060708
-pass pass:secret` computes, in Base64. -/
theorem encrypt_sample :
    encrypt "secret" sampleSalt (some "sk-abc") = "U2FsdGVkX18BAgMEBQYHCBF/vSgG4qwT9Fz81ms3Zxo=" := by
  decide!

set_option maxRecDepth 1000000 in
/-- Under the key `wrong` that ciphertext decrypts to a block whose last byte is `0xa2`: the
unpadding leaves no significant byte and the result is the empty string. -/
theorem decrypt_sample_wrong_key :
    decrypt "wrong" sampleSalt "U2FsdGVkX18BAgMEBQYHCBF/vSgG4qwT9Fz81ms3Zxo=" = .ok "" := by
  decide!

/-- The empty ciphertext decrypts to the empty string under every key. -/
theorem decrypt_empty (SECRET_KEY : String) (rnd : Salt) : decrypt SECRET_KEY rnd "" = .ok "" := by
  rfl

set_option maxRecDepth 1000000 in
/-- The ciphertext of the single byte `0xFF` under the key `secret` decrypts to that byte, which
the UTF-8 decoder refuses. -/
theorem decrypt_not_utf8 :
    decrypt "secret" sampleSalt "U2FsdGVkX18BAgMEBQYHCLjCSnBV/IINVnATFotOc1k="
      = .error "Malformed UTF-8 data" := by
  decide!

theorem decrypt_ok_or_malformed (SECRET_KEY : String) (rnd : Salt) (ciphertext : String) :
    (∃ s, decrypt SECRET_KEY rnd ciphertext = .ok s)
    ∨ decrypt SECRET_KEY rnd ciphertext = .error "Malformed UTF-8 data" := by
  unfold decrypt Utf8.stringify
  simp only []
  cases utf8Decode (AES.decrypt rnd ciphertext SECRET_KEY) with
  | none => right; rfl
  | some cs => left; exact ⟨_, rfl⟩

/-! ## The order of the listing -/

theorem case_find_perm (db : Db) (userId : String) :
    (Case.find db userId).Perm (db.cases.filter (fun c => c.userId = userId)) :=
  List.perm_insertionSort newerFirst _

theorem case_find_sorted (db : Db) (userId : String) :
    (Case.find db userId).Pairwise newerFirst :=
  List.sorted_insertionSort newerFirst _

theorem newest_first_unique (l : List CaseSchema) (r1 r2 r3 : CaseSchema) (hp : l.Perm [r1, r2, r3])
    (hs : l.Pairwise newerFirst) (h12 : r1.timestamp < r2.timestamp)
    (h23 : r2.timestamp < r3.timestamp) : l = [r3, r2, r1] := by
  have hdist : [r1, r2, r3].Pairwise (fun a b => a.timestamp ≠ b.timestamp) := by
    simp only [List.pairwise_cons, List.mem_cons, List.mem_singleton, forall_eq_or_imp, forall_eq,
      List.not_mem_nil, false_implies, implies_true, List.Pairwise.nil, and_true]
    omega
  have hdist2 : l.Pairwise (fun a b => a.timestamp ≠ b.timestamp) :=
    (hp.pairwise_iff (fun {a b} (h : a.timestamp ≠ b.timestamp) => h.symm)).2 hdist
  have hstrict : l.Pairwise strictlyNewer :=
    (hs.and hdist2).imp (fun {a b} h => Nat.lt_of_le_of_ne h.1 (fun e => h.2 e.symm))
  have htarget : [r3, r2, r1].Pairwise strictlyNewer := by
    simp only [List.pairwise_cons, List.mem_cons, List.mem_singleton, forall_eq_or_imp, forall_eq,
      List.not_mem_nil, false_implies, implies_true, List.Pairwise.nil, and_true, strictlyNewer]
    omega
  have hp2 : l.Perm [r3, r2, r1] := hp.trans (List.reverse_perm [r1, r2, r3]).symm
  exact List.eq_of_perm_of_sorted hp2 hstrict htarget

/-! ## The requests of one SDK call -/

theorem makeRequest_sent_le (server : Nat → HttpAnswer) (retriesRemaining : Nat) :
    ∀ sent, (OpenAI.makeRequest server retriesRemaining sent).2 ≤ sent + retriesRemaining + 1 := by
  induction retriesRemaining with
  | zero =>
    intro sent
    unfold OpenAI.makeRequest
    split <;> simp
  | succ r ih =>
    intro sent
    have h := ih (sent + 1)
    unfold OpenAI.makeRequest
    split
    · simp only []
      omega
    · split
      · omega
      · simp only []
        omega
    · omega

theorem makeRequest_sent_pos (server : Nat → HttpAnswer) (retriesRemaining : Nat) :
    ∀ sent, sent + 1 ≤ (OpenAI.makeRequest server retriesRemaining sent).2 := by
  induction retriesRemaining with
  | zero =>
    intro sent
    unfold OpenAI.makeRequest
    split <;> simp
  | succ r ih =>
    intro sent
    have h := ih (sent + 1)
    unfold OpenAI.makeRequest
    split
    · simp only []
      omega
    · split
      · omega
      · simp only []
        omega
    · omega

theorem request_sent_le (server : Nat → HttpAnswer) : (OpenAI.request server).2 ≤ 3 :=
  makeRequest_sent_le server OpenAI.maxRetries 0

theorem request_sent_pos (server : Nat → HttpAnswer) : 1 ≤ (OpenAI.request server).2 :=
  makeRequest_sent_pos server OpenAI.maxRetries 0

theorem execute_sent_le (server : Nat → HttpAnswer) :
    (PayPalHttpClient.execute server).2 ≤ 2 := by
  unfold PayPalHttpClient.execute
  repeat' split
  all_goals simp

theorem execute_sent_pos (server : Nat → HttpAnswer) :
    1 ≤ (PayPalHttpClient.execute server).2 := by
  unfold PayPalHttpClient.execute
  repeat' split
  all_goals simp

theorem requestsSent_nil (p : Providers) : requestsSent p [] = 0 := rfl

theorem requestsSent_chat (p : Providers) (apiKey : String) (prompt : Option String) :
    requestsSent p [.chat apiKey prompt] = (OpenAI.request p.chat).2 := by
  simp [requestsSent, ProviderCall.requests]

theorem requestsSent_image (p : Providers) (apiKey : String) (prompt : Option String) :
    requestsSent p [.image apiKey prompt] = (OpenAI.request p.image).2 := by
  simp [requestsSent, ProviderCall.requests]

theorem requestsSent_paypal (p : Providers) (clientId clientSecret : String)
    (amount : Option String) :
    requestsSent p [.paypal clientId clientSecret amount]
      = (PayPalHttpClient.execute p.paypal).2 := by
  simp [requestsSent, ProviderCall.requests]

/-! ## The paths through the handlers -/

theorem postChat_ok (SECRET_KEY : String) (w : World) (db : Db) (userId : String)
    (prompt : Option String) (keyData : KeySchema) (apiKey : String) (content : Option String)
    (h1 : w.keyFindOne = none) (h2 : Key.findOne db userId = some keyData)
    (h3 : decrypt SECRET_KEY w.rnd1 keyData.openaiKey = .ok apiKey)
    (h4 : w.chatCompletion = .ok content) (h5 : w.caseCreate = none) :
    postChat SECRET_KEY w db userId prompt
      = { res := ⟨200, .response content⟩,
          db := Case.create db w.now userId "chat" [("prompt", prompt), ("response", content)],
          calls := [.chat apiKey prompt] } := by
  simp only [postChat, h1, h2, h3, h4, h5]

theorem postChat_providerError (SECRET_KEY : String) (w : World) (db : Db) (userId : String)
    (prompt : Option String) (keyData : KeySchema) (apiKey err : String)
    (h1 : w.keyFindOne = none) (h2 : Key.findOne db userId = some keyData)
    (h3 : decrypt SECRET_KEY w.rnd1 keyData.openaiKey = .ok apiKey)
    (h4 : w.chatCompletion = .error err) :
    postChat SECRET_KEY w db userId prompt
      = { res := ⟨500, .error err⟩, db := db, calls := [.chat apiKey prompt] } := by
  simp only [postChat, h1, h2, h3, h4]

theorem postChat_decryptError (SECRET_KEY : String) (w : World) (db : Db) (userId : String)
    (prompt : Option String) (keyData : KeySchema) (err : String)
    (h1 : w.keyFindOne = none) (h2 : Key.findOne db userId = some keyData)
    (h3 : decrypt SECRET_KEY w.rnd1 keyData.openaiKey = .error err) :
    postChat SECRET_KEY w db userId prompt
      = { res := ⟨500, .error err⟩, db := db, calls := [] } := by
  simp only [postChat, h1, h2, h3]

theorem postImage_providerError (SECRET_KEY : String) (w : World) (db : Db) (userId : String)
    (prompt : Option String) (keyData : KeySchema) (apiKey err : String)
    (h1 : w.keyFindOne = none) (h2 : Key.findOne db userId = some keyData)
    (h3 : decrypt SECRET_KEY w.rnd1 keyData.openaiKey = .ok apiKey)
    (h4 : w.imageGenerate = .error err) :
    postImage SECRET_KEY w db userId prompt
      = { res := ⟨500, .error err⟩, db := db, calls := [.image apiKey prompt] } := by
  simp only [postImage, h1, h2, h3, h4]

theorem postImage_decryptError (SECRET_KEY : String) (w : World) (db : Db) (userId : String)
    (prompt : Option String) (keyData : KeySchema) (err : String)
    (h1 : w.keyFindOne = none) (h2 : Key.findOne db userId = some keyData)
    (h3 : decrypt SECRET_KEY w.rnd1 keyData.openaiKey = .error err) :
    postImage SECRET_KEY w db userId prompt
      = { res := ⟨500, .error err⟩, db := db, calls := [] } := by
  simp only [postImage, h1, h2, h3]

theorem postPaypal_providerError (SECRET_KEY : String) (w : World) (db : Db) (userId : String)
    (amount : Option String) (keyData : KeySchema) (clientId clientSecret err : String)
    (h1 : w.keyFindOne = none) (h2 : Key.findOne db userId = some keyData)
    (h3 : decrypt SECRET_KEY w.rnd1 keyData.paypalClientId = .ok clientId)
    (h3b : decrypt SECRET_KEY w.rnd2 keyData.paypalSecret = .ok clientSecret)
    (h4 : w.paypalExecute = .error err) :
    postPaypal SECRET_KEY w db userId amount
      = { res := ⟨500, .error err⟩, db := db,
          calls := [.paypal clientId clientSecret amount] } := by
  simp only [postPaypal, h1, h2, h3, h3b, h4]

theorem postPaypal_decryptError (SECRET_KEY : String) (w : World) (db : Db) (userId : String)
    (amount : Option String) (keyData : KeySchema) (err : String)
    (h1 : w.keyFindOne = none) (h2 : Key.findOne db userId = some keyData)
    (h3 : decrypt SECRET_KEY w.rnd1 keyData.paypalClientId = .error err
      ∨ ∃ clientId, decrypt SECRET_KEY w.rnd1 keyData.paypalClientId = .ok clientId
          ∧ decrypt SECRET_KEY w.rnd2 keyData.paypalSecret = .error err) :
    postPaypal SECRET_KEY w db userId amount
      = { res := ⟨500, .error err⟩, db := db, calls := [] } := by
  rcases h3 with h3 | ⟨clientId, h3, h3b⟩
  · simp only [postPaypal, h1, h2, h3]
  · simp only [postPaypal, h1, h2, h3, h3b]

theorem postChat_createError (SECRET_KEY : String) (w : World) (db : Db) (userId : String)
    (prompt : Option String) (keyData : KeySchema) (apiKey err : String)
    (content : Option String)
    (h1 : w.keyFindOne = none) (h2 : Key.findOne db userId = some keyData)
    (h3 : decrypt SECRET_KEY w.rnd1 keyData.openaiKey = .ok apiKey)
    (h4 : w.chatCompletion = .ok content) (h5 : w.caseCreate = some err) :
    postChat SECRET_KEY w db userId prompt
      = { res := ⟨500, .error err⟩, db := db, calls := [.chat apiKey prompt] } := by
  simp only [postChat, h1, h2, h3, h4, h5]

theorem postImage_createError (SECRET_KEY : String) (w : World) (db : Db) (userId : String)
    (prompt : Option String) (keyData : KeySchema) (apiKey err : String)
    (url : Option String)
    (h1 : w.keyFindOne = none) (h2 : Key.findOne db userId = some keyData)
    (h3 : decrypt SECRET_KEY w.rnd1 keyData.openaiKey = .ok apiKey)
    (h4 : w.imageGenerate = .ok url) (h5 : w.caseCreate = some err) :
    postImage SECRET_KEY w db userId prompt
      = { res := ⟨500, .error err⟩, db := db, calls := [.image apiKey prompt] } := by
  simp only [postImage, h1, h2, h3, h4, h5]

theorem postPaypal_createError (SECRET_KEY : String) (w : World) (db : Db) (userId : String)
    (amount : Option String) (keyData : KeySchema) (clientId clientSecret err : String)
    (id : Option String)
    (h1 : w.keyFindOne = none) (h2 : Key.findOne db userId = some keyData)
    (h3 : decrypt SECRET_KEY w.rnd1 keyData.paypalClientId = .ok clientId)
    (h3b : decrypt SECRET_KEY w.rnd2 keyData.paypalSecret = .ok clientSecret)
    (h4 : w.paypalExecute = .ok id) (h5 : w.caseCreate = some err) :
    postPaypal SECRET_KEY w db userId amount
      = { res := ⟨500, .error err⟩, db := db,
          calls := [.paypal clientId clientSecret amount] } := by
  simp only [postPaypal, h1, h2, h3, h3b, h4, h5]

theorem run_nil (SECRET_KEY : String) (db : Db) : run SECRET_KEY db [] = db := rfl

theorem run_cons (SECRET_KEY : String) (db : Db) (w : World) (req : Request)
    (rest : List (World × Request)) :
    run SECRET_KEY db ((w, req) :: rest)
      = run SECRET_KEY (handle SECRET_KEY w db req).db rest := rfl

theorem handle_chat_eq (SECRET_KEY : String) (w : World) (db : Db) (userId : String)
    (prompt : Option String) :
    handle SECRET_KEY w db (.chat userId prompt) = postChat SECRET_KEY w db userId prompt := rfl

theorem handle_keys_eq (SECRET_KEY : String) (w : World) (db : Db) (userId : String)
    (openaiKey paypalClientId paypalSecret : Option String) :
    handle SECRET_KEY w db (.keys userId openaiKey paypalClientId paypalSecret)
      = postKeys SECRET_KEY w db userId openaiKey paypalClientId paypalSecret := rfl

/-! ## The claims -/

/-- C1. For a userId with no stored bundle, when the lookup itself goes through, the chat, image
and payment handlers each answer 400 with the error `Keine Schlüssel gefunden`, make no provider
call and leave the credential store and the ledger as they were. -/
theorem missing_credentials_guard (SECRET_KEY : String) (w : World) (db : Db) (userId : String)
    (prompt amount : Option String) (hlookup : w.keyFindOne = none)
    (hnone : ∀ d ∈ db.keys, d.userId ≠ userId) :
    postChat SECRET_KEY w db userId prompt
        = { res := ⟨400, .error "Keine Schlüssel gefunden"⟩, db := db, calls := [] }
    ∧ postImage SECRET_KEY w db userId prompt
        = { res := ⟨400, .error "Keine Schlüssel gefunden"⟩, db := db, calls := [] }
    ∧ postPaypal SECRET_KEY w db userId amount
        = { res := ⟨400, .error "Keine Schlüssel gefunden"⟩, db := db, calls := [] } := by
  have hfind := key_findOne_eq_none db userId hnone
  simp only [postChat, postImage, postPaypal, hlookup, hfind, and_self]

/-- The guard on a fresh installation: user `u1` has registered nothing. -/
theorem missing_credentials_guard_witness :
    calmWorld.keyFindOne = none
    ∧ (∀ d ∈ Db.empty.keys, d.userId ≠ "u1")
    ∧ postChat "secret" calmWorld Db.empty "u1" (some "hello")
        = { res := ⟨400, .error "Keine Schlüssel gefunden"⟩, db := Db.empty, calls := [] }
    ∧ postImage "secret" calmWorld Db.empty "u1" (some "hello")
        = { res := ⟨400, .error "Keine Schlüssel gefunden"⟩, db := Db.empty, calls := [] }
    ∧ postPaypal "secret" calmWorld Db.empty "u1" (some "10.00")
        = { res := ⟨400, .error "Keine Schlüssel gefunden"⟩, db := Db.empty, calls := [] } :=
  ⟨rfl, by simp [Db.empty],
    missing_credentials_guard "secret" calmWorld Db.empty "u1" (some "hello") (some "10.00") rfl
      (by simp [Db.empty])⟩

/-- C2. Round trip of the two cipher helpers: for every secret `s`, every key and every salt the
library draws, `decrypt (encrypt s)` returns `s`. -/
theorem decrypt_encrypt_round_trip (SECRET_KEY s : String) (rnd rnd2 : Salt) :
    decrypt SECRET_KEY rnd2 (encrypt SECRET_KEY rnd (some s)) = .ok s :=
  decrypt_encrypt SECRET_KEY rnd rnd2 (some s)

/-- C3, as stated, fails: the ciphertext of `sk-abc` made under the key `secret` is read under
the key `wrong` as the empty string, without any error, and so is the empty ciphertext under any
key; the chat handler then calls the provider with the empty string as API key and answers 200. -/
theorem decrypt_wrong_key_is_silent :
    decrypt "wrong" sampleSalt (encrypt "secret" sampleSalt (some "sk-abc")) = .ok ""
    ∧ decrypt "secret" sampleSalt "" = .ok ""
    ∧ postChat "wrong" calmWorld registeredDb "u1" (some "hello")
        = { res := ⟨200, .response (some "Hallo")⟩,
            db := Case.create registeredDb 1700000000000 "u1" "chat"
              [("prompt", some "hello"), ("response", some "Hallo")],
            calls := [.chat "" (some "hello")] } := by
  refine ⟨?_, decrypt_empty _ _, ?_⟩
  · rw [encrypt_sample, decrypt_sample_wrong_key]
  · exact postChat_ok "wrong" calmWorld registeredDb "u1" (some "hello") _ "" (some "Hallo") rfl
      registeredDb_findOne (by rw [encrypt_sample]; exact decrypt_sample_wrong_key) rfl rfl

/-- C3, amended. `decrypt` has no error of its own: on every ciphertext and key it either
returns a string or throws `Malformed UTF-8 data`.  In the chat handler a string it returns for
the stored slot is the API key of the provider call; when it throws, the handler answers 500
with that message, makes no provider call and changes nothing. -/
theorem decrypt_is_unauthenticated (SECRET_KEY : String) (rnd : Salt) (ciphertext : String)
    (w : World) (db : Db) (userId : String) (prompt : Option String) (keyData : KeySchema)
    (hlookup : w.keyFindOne = none) (hfind : Key.findOne db userId = some keyData) :
    ((∃ s, decrypt SECRET_KEY rnd ciphertext = .ok s)
      ∨ decrypt SECRET_KEY rnd ciphertext = .error "Malformed UTF-8 data")
    ∧ (∀ apiKey, decrypt SECRET_KEY w.rnd1 keyData.openaiKey = .ok apiKey →
        (postChat SECRET_KEY w db userId prompt).calls = [.chat apiKey prompt])
    ∧ (∀ err, decrypt SECRET_KEY w.rnd1 keyData.openaiKey = .error err →
        postChat SECRET_KEY w db userId prompt
          = { res := ⟨500, .error err⟩, db := db, calls := [] }) := by
  refine ⟨decrypt_ok_or_malformed SECRET_KEY rnd ciphertext, ?_, ?_⟩
  · intro apiKey h
    simp only [postChat, hlookup, hfind, h]
    cases w.chatCompletion with
    | error e => rfl
    | ok content => cases w.caseCreate <;> rfl
  · intro err h
    simp only [postChat, hlookup, hfind, h]

/-- An instance: the bundle of `u1` was stored under the key `secret`, the server now runs
with the key `wrong`. -/
theorem decrypt_is_unauthenticated_witness :
    calmWorld.keyFindOne = none
    ∧ Key.findOne registeredDb "u1" = some
        { userId := "u1",
          openaiKey := encrypt "secret" sampleSalt (some "sk-abc"),
          paypalClientId := encrypt "secret" sampleSalt (some "client-1"),
          paypalSecret := encrypt "secret" sampleSalt (some "pp-secret") }
    ∧ (postChat "wrong" calmWorld registeredDb "u1" (some "hello")).calls
        = [.chat "" (some "hello")] :=
  ⟨rfl, registeredDb_findOne,
    (decrypt_is_unauthenticated "wrong" sampleSalt "" calmWorld registeredDb "u1" (some "hello") _
      rfl registeredDb_findOne).2.1 ""
      (by rw [encrypt_sample]; exact decrypt_sample_wrong_key)⟩

/-- C4. In every reachable state, after `POST /keys` for user `u` whose store operation goes
through, the store holds exactly one bundle for `u`, the lookup for `u` returns it, its three
slots are the outputs of `encrypt` on the submitted values, each decrypts to the submitted value,
and none of them is the submitted plaintext. -/
theorem keys_upsert_stores_bundle (SECRET_KEY : String) (w : World) (db : Db) (userId : String)
    (openaiKey paypalClientId paypalSecret : String) (rnd : Salt)
    (hreach : Reachable SECRET_KEY db) (hok : w.keyFindOneAndUpdate = none) :
    ((postKeys SECRET_KEY w db userId (some openaiKey) (some paypalClientId)
        (some paypalSecret)).db.keys.filter (fun d => d.userId = userId)).length = 1
    ∧ ∃ d : KeySchema,
        Key.findOne (postKeys SECRET_KEY w db userId (some openaiKey) (some paypalClientId)
          (some paypalSecret)).db userId = some d
        ∧ d = { userId := userId,
                openaiKey := encrypt SECRET_KEY w.rnd1 (some openaiKey),
                paypalClientId := encrypt SECRET_KEY w.rnd2 (some paypalClientId),
                paypalSecret := encrypt SECRET_KEY w.rnd3 (some paypalSecret) }
        ∧ decrypt SECRET_KEY rnd d.openaiKey = .ok openaiKey
        ∧ decrypt SECRET_KEY rnd d.paypalClientId = .ok paypalClientId
        ∧ decrypt SECRET_KEY rnd d.paypalSecret = .ok paypalSecret
        ∧ d.openaiKey ≠ openaiKey ∧ d.paypalClientId ≠ paypalClientId
        ∧ d.paypalSecret ≠ paypalSecret := by
  have hkeys : (postKeys SECRET_KEY w db userId (some openaiKey) (some paypalClientId)
      (some paypalSecret)).db.keys
      = Key.upsert userId (KeySchema.mk userId (encrypt SECRET_KEY w.rnd1 (some openaiKey))
          (encrypt SECRET_KEY w.rnd2 (some paypalClientId))
          (encrypt SECRET_KEY w.rnd3 (some paypalSecret))) db.keys := by
    simp only [postKeys, hok]
    cases w.caseCreate <;> rfl
  have hone := reachable_oneBundle hreach userId
  refine ⟨?_, _, ?_, rfl, ?_, ?_, ?_, ?_, ?_, ?_⟩
  · rw [hkeys, key_filter_upsert_self userId _ rfl, List.length_cons, List.length_tail]
    omega
  · unfold Key.findOne
    rw [hkeys]
    exact key_find_upsert userId _ rfl db.keys
  · exact decrypt_encrypt SECRET_KEY w.rnd1 rnd (some openaiKey)
  · exact decrypt_encrypt SECRET_KEY w.rnd2 rnd (some paypalClientId)
  · exact decrypt_encrypt SECRET_KEY w.rnd3 rnd (some paypalSecret)
  · exact encrypt_ne_plaintext SECRET_KEY w.rnd1 openaiKey
  · exact encrypt_ne_plaintext SECRET_KEY w.rnd2 paypalClientId
  · exact encrypt_ne_plaintext SECRET_KEY w.rnd3 paypalSecret

/-- An instance: user `u1`, already registered, submits new secrets. -/
theorem keys_upsert_stores_bundle_witness :
    Reachable "secret" registeredDb
    ∧ calmWorld.keyFindOneAndUpdate = none
    ∧ ((postKeys "secret" calmWorld registeredDb "u1" (some "sk-new") (some "client-2")
        (some "pp-new")).db.keys.filter (fun d => d.userId = "u1")).length = 1
    ∧ ∃ d : KeySchema,
        Key.findOne (postKeys "secret" calmWorld registeredDb "u1" (some "sk-new")
          (some "client-2") (some "pp-new")).db "u1" = some d
        ∧ d = { userId := "u1",
                openaiKey := encrypt "secret" calmWorld.rnd1 (some "sk-new"),
                paypalClientId := encrypt "secret" calmWorld.rnd2 (some "client-2"),
                paypalSecret := encrypt "secret" calmWorld.rnd3 (some "pp-new") }
        ∧ decrypt "secret" sampleSalt d.openaiKey = .ok "sk-new"
        ∧ decrypt "secret" sampleSalt d.paypalClientId = .ok "client-2"
        ∧ decrypt "secret" sampleSalt d.paypalSecret = .ok "pp-new"
        ∧ d.openaiKey ≠ "sk-new" ∧ d.paypalClientId ≠ "client-2" ∧ d.paypalSecret ≠ "pp-new" :=
  ⟨registeredDb_reachable, rfl,
    keys_upsert_stores_bundle "secret" calmWorld registeredDb "u1" "sk-new" "client-2" "pp-new"
      sampleSalt registeredDb_reachable rfl⟩

/-- C5. When the query goes through, `GET /cases` answers 200 with a list that holds exactly the
case records of the user, each once (a permutation of them), ordered newest first: every record
in it has a timestamp greater than or equal to that of every later one, adjacent ones in
particular; when the user's records were appended at times `t1 < t2 < t3`, the list is the third,
the second, the first. -/
theorem cases_listing_newest_first (w : World) (db : Db) (userId : String)
    (hquery : w.caseFind = none) :
    ∃ l : List CaseSchema,
      (getCases w db userId).res = ⟨200, .cases l⟩
      ∧ l.Perm (db.cases.filter (fun c => c.userId = userId))
      ∧ l.Pairwise (fun a b => b.timestamp ≤ a.timestamp)
      ∧ l.Chain' (fun a b => b.timestamp ≤ a.timestamp)
      ∧ ∀ r1 r2 r3 : CaseSchema, db.cases.filter (fun c => c.userId = userId) = [r1, r2, r3] →
          r1.timestamp < r2.timestamp → r2.timestamp < r3.timestamp → l = [r3, r2, r1] := by
  refine ⟨Case.find db userId, ?_, case_find_perm db userId, case_find_sorted db userId,
    (case_find_sorted db userId).chain', ?_⟩
  · simp only [getCases, hquery]
  · intro r1 r2 r3 hf h12 h23
    exact newest_first_unique _ r1 r2 r3 (hf ▸ case_find_perm db userId)
      (case_find_sorted db userId) h12 h23

/-- An instance: user `u1` has three case records, appended at the times 1000, 2000 and 3000,
with a record of user `u2` at 1500 in between; the listing of `u1` answers the three records of
`u1`, the one of 3000 first, the one of 1000 last. -/
theorem cases_listing_newest_first_witness :
    calmWorld.caseFind = none
    ∧ busyDb.cases
        = [CaseSchema.mk "u1" "key_update" [("message", some "Schlüssel aktualisiert")] 1000,
           CaseSchema.mk "u2" "key_update" [("message", some "Schlüssel aktualisiert")] 1500,
           CaseSchema.mk "u1" "key_update" [("message", some "Schlüssel aktualisiert")] 2000,
           CaseSchema.mk "u1" "key_update" [("message", some "Schlüssel aktualisiert")] 3000]
    ∧ (getCases calmWorld busyDb "u1").res
        = ⟨200, .cases
            [CaseSchema.mk "u1" "key_update" [("message", some "Schlüssel aktualisiert")] 3000,
             CaseSchema.mk "u1" "key_update" [("message", some "Schlüssel aktualisiert")] 2000,
             CaseSchema.mk "u1" "key_update" [("message", some "Schlüssel aktualisiert")] 1000]⟩ := by
  have hfilter : busyDb.cases.filter (fun c => c.userId = "u1")
      = [CaseSchema.mk "u1" "key_update" [("message", some "Schlüssel aktualisiert")] 1000,
         CaseSchema.mk "u1" "key_update" [("message", some "Schlüssel aktualisiert")] 2000,
         CaseSchema.mk "u1" "key_update" [("message", some "Schlüssel aktualisiert")] 3000] := rfl
  obtain ⟨l, hres, _, _, _, horder⟩ := cases_listing_newest_first calmWorld busyDb "u1" rfl
  have hl := horder _ _ _ hfilter (by decide) (by decide)
  refine ⟨rfl, rfl, ?_⟩
  rw [hres, hl]

/-- C6, as stated, fails: user `u1` registers the API key `sk-abc` and then sends a chat request
whose prompt is `sk-abc`; the ledger then holds a case record whose `prompt` field equals the
decrypted `openaiKey` slot of the stored bundle. -/
theorem prompt_equal_to_secret_is_logged :
    ∃ c ∈ (run "secret" Db.empty
        [(calmWorld, .keys "u1" (some "sk-abc") (some "client-1") (some "pp-secret")),
         (calmWorld, .chat "u1" (some "sk-abc"))]).cases,
      ∃ d ∈ (run "secret" Db.empty
        [(calmWorld, .keys "u1" (some "sk-abc") (some "client-1") (some "pp-secret")),
         (calmWorld, .chat "u1" (some "sk-abc"))]).keys,
        ("prompt", some "sk-abc") ∈ c.details
        ∧ decrypt "secret" sampleSalt d.openaiKey = .ok "sk-abc" := by
  have hrun : run "secret" Db.empty
        [(calmWorld, .keys "u1" (some "sk-abc") (some "client-1") (some "pp-secret")),
         (calmWorld, .chat "u1" (some "sk-abc"))]
      = Case.create registeredDb calmWorld.now "u1" "chat"
          [("prompt", some "sk-abc"), ("response", some "Hallo")] := by
    have e : (postKeys "secret" calmWorld Db.empty "u1" (some "sk-abc") (some "client-1")
        (some "pp-secret")).db = registeredDb := rfl
    rw [run_cons, run_cons, run_nil, handle_chat_eq, handle_keys_eq, e,
      postChat_ok "secret" calmWorld registeredDb "u1" (some "sk-abc") _ "sk-abc" (some "Hallo")
        rfl registeredDb_findOne (decrypt_encrypt _ _ _ _) rfl rfl]
  rw [hrun]
  refine ⟨{ userId := "u1", type := "chat",
            details := [("prompt", some "sk-abc"), ("response", some "Hallo")],
            timestamp := calmWorld.now }, ?_, KeySchema.mk "u1" (encrypt "secret" sampleSalt (some "sk-abc"))
      (encrypt "secret" sampleSalt (some "client-1")) (encrypt "secret" sampleSalt (some "pp-secret")),
      ?_, ?_, ?_⟩
  · exact List.mem_append_right _ (List.mem_singleton.2 rfl)
  · show _ ∈ registeredDb.keys
    rw [registeredDb_eq]
    exact List.mem_singleton.2 rfl
  · exact List.mem_cons_self _ _
  · exact decrypt_encrypt _ _ _ _

/-- C6, amended. The record a handler appends is made of the request and the provider's answer
only: its details are the fixed message `Schlüssel aktualisiert` (keys), the prompt and the
returned text (chat), the prompt and the returned url (image), the returned order id and the
amount (payment); no stored slot and no decrypted secret is copied into it. -/
theorem case_details_come_from_request_and_provider (SECRET_KEY : String) (w : World) (db : Db)
    (req : Request) :
    (handle SECRET_KEY w db req).db.cases = db.cases
    ∨ ∃ c, (handle SECRET_KEY w db req).db.cases = db.cases ++ [c]
        ∧ match req with
          | .keys _ _ _ _ => c.details = [("message", some "Schlüssel aktualisiert")]
          | .chat _ prompt => ∃ content, w.chatCompletion = .ok content
              ∧ c.details = [("prompt", prompt), ("response", content)]
          | .image _ prompt => ∃ url, w.imageGenerate = .ok url
              ∧ c.details = [("prompt", prompt), ("imageUrl", url)]
          | .paypal _ amount => ∃ id, w.paypalExecute = .ok id
              ∧ c.details = [("orderId", id), ("amount", amount)]
          | .cases _ => False := by
  cases req with
  | keys userId a b c =>
    simp only [handle, postKeys]
    cases w.keyFindOneAndUpdate with
    | some e => left; rfl
    | none =>
      cases w.caseCreate with
      | some e => left; rfl
      | none => right; exact ⟨_, rfl, rfl⟩
  | chat userId prompt =>
    simp only [handle, postChat]
    repeat' split
    all_goals first | (left; rfl) | (right; exact ⟨_, rfl, _, by assumption, rfl⟩)
  | image userId prompt =>
    simp only [handle, postImage]
    repeat' split
    all_goals first | (left; rfl) | (right; exact ⟨_, rfl, _, by assumption, rfl⟩)
  | paypal userId amount =>
    simp only [handle, postPaypal]
    repeat' split
    all_goals first | (left; rfl) | (right; exact ⟨_, rfl, _, by assumption, rfl⟩)
  | cases userId =>
    left
    simp only [handle, getCases]
    repeat' split
    all_goals rfl

/-- C7, as stated, fails: a keys request that carries no secret value at all is answered 200,
stores a bundle and appends a case record; a chat request without prompt for a registered user
reaches the provider. -/
theorem request_without_fields_is_served :
    postKeys "secret" calmWorld Db.empty "u1" none none none
      = { res := ⟨200, .message "Schlüssel gespeichert"⟩,
          db := { keys := [{ userId := "u1",
                             openaiKey := encrypt "secret" sampleSalt none,
                             paypalClientId := encrypt "secret" sampleSalt none,
                             paypalSecret := encrypt "secret" sampleSalt none }],
                  cases := [{ userId := "u1", type := "key_update",
                              details := [("message", some "Schlüssel aktualisiert")],
                              timestamp := 1700000000000 }] },
          calls := [] }
    ∧ (postChat "secret" calmWorld registeredDb "u1" none).calls = [.chat "sk-abc" none] := by
  refine ⟨rfl, ?_⟩
  rw [postChat_ok "secret" calmWorld registeredDb "u1" none _ "sk-abc" (some "Hallo")
      rfl registeredDb_findOne (decrypt_encrypt _ _ _ _) rfl rfl]

/-- C7, amended. The handlers do not validate their fields.  A chat, image or payment request
without prompt or amount is turned away without side effects when the lookup goes through and no
bundle is stored for its userId (400, `Keine Schlüssel gefunden`).  A keys request without
secret values is accepted, whatever is stored for the user before: when the store and the ledger
go through it answers 200, appends a `key_update` case and stores a bundle, the one a lookup of
the user then finds, whose three slots are encryptions of the empty text; each of them decrypts
to the empty string. -/
theorem missing_fields_are_not_validated (SECRET_KEY : String) (w : World) (db : Db)
    (userId : String) (rnd : Salt) :
    (w.keyFindOne = none → (∀ d ∈ db.keys, d.userId ≠ userId) →
      postChat SECRET_KEY w db userId none
          = { res := ⟨400, .error "Keine Schlüssel gefunden"⟩, db := db, calls := [] }
      ∧ postImage SECRET_KEY w db userId none
          = { res := ⟨400, .error "Keine Schlüssel gefunden"⟩, db := db, calls := [] }
      ∧ postPaypal SECRET_KEY w db userId none
          = { res := ⟨400, .error "Keine Schlüssel gefunden"⟩, db := db, calls := [] })
    ∧ (w.keyFindOneAndUpdate = none → w.caseCreate = none →
      postKeys SECRET_KEY w db userId none none none
          = { res := ⟨200, .message "Schlüssel gespeichert"⟩,
              db := Case.create
                (Key.findOneAndUpdate db userId
                  { userId := userId,
                    openaiKey := encrypt SECRET_KEY w.rnd1 none,
                    paypalClientId := encrypt SECRET_KEY w.rnd2 none,
                    paypalSecret := encrypt SECRET_KEY w.rnd3 none })
                w.now userId "key_update" [("message", some "Schlüssel aktualisiert")],
              calls := [] }
      ∧ Key.findOne (postKeys SECRET_KEY w db userId none none none).db userId
          = some { userId := userId,
                   openaiKey := encrypt SECRET_KEY w.rnd1 none,
                   paypalClientId := encrypt SECRET_KEY w.rnd2 none,
                   paypalSecret := encrypt SECRET_KEY w.rnd3 none })
    ∧ decrypt SECRET_KEY rnd (encrypt SECRET_KEY w.rnd1 none) = .ok ""
    ∧ decrypt SECRET_KEY rnd (encrypt SECRET_KEY w.rnd2 none) = .ok ""
    ∧ decrypt SECRET_KEY rnd (encrypt SECRET_KEY w.rnd3 none) = .ok "" := by
  refine ⟨?_, ?_, decrypt_encrypt _ _ _ none, decrypt_encrypt _ _ _ none,
    decrypt_encrypt _ _ _ none⟩
  · intro hlookup hnone
    have hfind := key_findOne_eq_none db userId hnone
    refine ⟨?_, ?_, ?_⟩
    · simp only [postChat, hlookup, hfind]
    · simp only [postImage, hlookup, hfind]
    · simp only [postPaypal, hlookup, hfind]
  · intro hstore hledger
    have hpost : postKeys SECRET_KEY w db userId none none none
        = { res := ⟨200, .message "Schlüssel gespeichert"⟩,
            db := Case.create
              (Key.findOneAndUpdate db userId
                (KeySchema.mk userId (encrypt SECRET_KEY w.rnd1 none)
                  (encrypt SECRET_KEY w.rnd2 none) (encrypt SECRET_KEY w.rnd3 none)))
              w.now userId "key_update" [("message", some "Schlüssel aktualisiert")],
            calls := [] } := by
      simp only [postKeys, hstore, hledger]
    refine ⟨hpost, ?_⟩
    rw [hpost]
    exact key_find_upsert userId _ rfl db.keys

/-- An instance of both parts.  User `u1` is registered with the secrets `sk-abc`, `client-1`,
`pp-secret`; a keys request of `u1` without any secret is answered 200 and replaces the stored
bundle by encryptions of the empty text.  User `u2` has no bundle; a chat request of `u2`
without prompt is answered 400 and changes nothing. -/
theorem missing_fields_are_not_validated_witness :
    calmWorld.keyFindOneAndUpdate = none
    ∧ calmWorld.caseCreate = none
    ∧ Key.findOne registeredDb "u1"
        = some { userId := "u1",
                 openaiKey := encrypt "secret" sampleSalt (some "sk-abc"),
                 paypalClientId := encrypt "secret" sampleSalt (some "client-1"),
                 paypalSecret := encrypt "secret" sampleSalt (some "pp-secret") }
    ∧ (postKeys "secret" calmWorld registeredDb "u1" none none none).res
        = ⟨200, .message "Schlüssel gespeichert"⟩
    ∧ Key.findOne (postKeys "secret" calmWorld registeredDb "u1" none none none).db "u1"
        = some { userId := "u1",
                 openaiKey := encrypt "secret" sampleSalt none,
                 paypalClientId := encrypt "secret" sampleSalt none,
                 paypalSecret := encrypt "secret" sampleSalt none }
    ∧ decrypt "secret" sampleSalt (encrypt "secret" sampleSalt none) = .ok ""
    ∧ calmWorld.keyFindOne = none
    ∧ (∀ d ∈ registeredDb.keys, d.userId ≠ "u2")
    ∧ postChat "secret" calmWorld registeredDb "u2" none
        = { res := ⟨400, .error "Keine Schlüssel gefunden"⟩, db := registeredDb, calls := [] } :=
  have h := missing_fields_are_not_validated "secret" calmWorld registeredDb "u1" sampleSalt
  have h2 := missing_fields_are_not_validated "secret" calmWorld registeredDb "u2" sampleSalt
  have hkeys := h.2.1 rfl rfl
  have hother : ∀ d ∈ registeredDb.keys, d.userId ≠ "u2" := by
    rw [registeredDb_eq]
    intro d hd
    rw [List.mem_singleton.1 hd]
    decide
  ⟨rfl, rfl, registeredDb_findOne, by rw [hkeys.1], hkeys.2, h.2.2.1, rfl, hother,
    (h2.1 rfl hother).1⟩

/-- C8, as stated, fails: user `u1` is registered and the completion endpoint answers 503 to
every request.  The handler calls `chat.completions.create` once, on a client built with the
default options; that call sends the request, sends it a second and a third time, and only then
rejects.  The handler answers 500 and writes nothing, after three attempts at the provider. -/
theorem failed_completion_is_sent_three_times :
    OpenAI.request unavailableServer = (.error "503 Service Unavailable", 3)
    ∧ postChat "secret" (calmWorld.facing unavailableProviders) registeredDb "u1" (some "hello")
        = { res := ⟨500, .error "503 Service Unavailable"⟩, db := registeredDb,
            calls := [.chat "sk-abc" (some "hello")] }
    ∧ requestsSent unavailableProviders
        (postChat "secret" (calmWorld.facing unavailableProviders) registeredDb "u1"
          (some "hello")).calls = 3 := by
  have hpost : postChat "secret" (calmWorld.facing unavailableProviders) registeredDb "u1"
      (some "hello")
      = { res := ⟨500, .error "503 Service Unavailable"⟩, db := registeredDb,
          calls := [.chat "sk-abc" (some "hello")] } :=
    postChat_providerError "secret" (calmWorld.facing unavailableProviders) registeredDb "u1"
      (some "hello") _ "sk-abc" "503 Service Unavailable" rfl registeredDb_findOne
      (decrypt_encrypt _ _ _ _) rfl
  refine ⟨rfl, hpost, ?_⟩
  rw [hpost, requestsSent_chat]
  rfl

/-- C8, amended. When the provider call of a chat, image or payment request fails, the handler
changes neither the credential store nor the ledger (no case record is appended), does not
answer 200, and, when the call was made, answers 500 with the provider's error.  The handler
calls the SDK method at most once and does not repeat it; the SDK, built with its default
options, repeats the request on its own: one call sends it at least once and at most three times
for a completion or an image (`maxRetries` is 2), at most twice for a payment (once more after a
401). -/
theorem provider_failure_leaves_no_record (SECRET_KEY : String) (w : World) (db : Db)
    (userId : String) (prompt amount : Option String) (p : Providers) (e : String) :
    ((OpenAI.request p.chat).1 = .error e →
      (postChat SECRET_KEY (w.facing p) db userId prompt).db = db
      ∧ (postChat SECRET_KEY (w.facing p) db userId prompt).calls.length ≤ 1
      ∧ (postChat SECRET_KEY (w.facing p) db userId prompt).res.status ≠ 200
      ∧ ((postChat SECRET_KEY (w.facing p) db userId prompt).calls ≠ [] →
          (postChat SECRET_KEY (w.facing p) db userId prompt).res = ⟨500, .error e⟩
          ∧ 1 ≤ requestsSent p (postChat SECRET_KEY (w.facing p) db userId prompt).calls)
      ∧ requestsSent p (postChat SECRET_KEY (w.facing p) db userId prompt).calls ≤ 3)
    ∧ ((OpenAI.request p.image).1 = .error e →
      (postImage SECRET_KEY (w.facing p) db userId prompt).db = db
      ∧ (postImage SECRET_KEY (w.facing p) db userId prompt).calls.length ≤ 1
      ∧ (postImage SECRET_KEY (w.facing p) db userId prompt).res.status ≠ 200
      ∧ ((postImage SECRET_KEY (w.facing p) db userId prompt).calls ≠ [] →
          (postImage SECRET_KEY (w.facing p) db userId prompt).res = ⟨500, .error e⟩
          ∧ 1 ≤ requestsSent p (postImage SECRET_KEY (w.facing p) db userId prompt).calls)
      ∧ requestsSent p (postImage SECRET_KEY (w.facing p) db userId prompt).calls ≤ 3)
    ∧ ((PayPalHttpClient.execute p.paypal).1 = .error e →
      (postPaypal SECRET_KEY (w.facing p) db userId amount).db = db
      ∧ (postPaypal SECRET_KEY (w.facing p) db userId amount).calls.length ≤ 1
      ∧ (postPaypal SECRET_KEY (w.facing p) db userId amount).res.status ≠ 200
      ∧ ((postPaypal SECRET_KEY (w.facing p) db userId amount).calls ≠ [] →
          (postPaypal SECRET_KEY (w.facing p) db userId amount).res = ⟨500, .error e⟩
          ∧ 1 ≤ requestsSent p (postPaypal SECRET_KEY (w.facing p) db userId amount).calls)
      ∧ requestsSent p (postPaypal SECRET_KEY (w.facing p) db userId amount).calls ≤ 2) := by
  have c1 := request_sent_le p.chat
  have c2 := request_sent_pos p.chat
  have i1 := request_sent_le p.image
  have i2 := request_sent_pos p.image
  have p1 := execute_sent_le p.paypal
  have p2 := execute_sent_pos p.paypal
  refine ⟨?_, ?_, ?_⟩
  · intro hchat
    have hchat1 : (w.facing p).chatCompletion = .error e := hchat
    simp only [postChat, hchat1]
    repeat' split
    all_goals simp [requestsSent_nil, requestsSent_chat, c1, c2]
  · intro himage
    have himage1 : (w.facing p).imageGenerate = .error e := himage
    simp only [postImage, himage1]
    repeat' split
    all_goals simp [requestsSent_nil, requestsSent_image, i1, i2]
  · intro hpay
    have hpay1 : (w.facing p).paypalExecute = .error e := hpay
    simp only [postPaypal, hpay1]
    repeat' split
    all_goals simp [requestsSent_nil, requestsSent_paypal, p1, p2]

/-- An instance: user `u1` is registered and every provider answers 503.  The image call is made
once, with the decrypted key, and sends three requests; the payment call is made once, with the
decrypted client id and secret, and sends one request, 503 being no answer that PayPal's client
retries; both requests are answered 500 and nothing is written. -/
theorem provider_failure_leaves_no_record_witness :
    (OpenAI.request unavailableProviders.image).1 = .error "503 Service Unavailable"
    ∧ (postImage "secret" (calmWorld.facing unavailableProviders) registeredDb "u1"
        (some "a fox")).calls = [.image "sk-abc" (some "a fox")]
    ∧ (postImage "secret" (calmWorld.facing unavailableProviders) registeredDb "u1"
        (some "a fox")).db = registeredDb
    ∧ (postImage "secret" (calmWorld.facing unavailableProviders) registeredDb "u1"
        (some "a fox")).res = ⟨500, .error "503 Service Unavailable"⟩
    ∧ requestsSent unavailableProviders [.image "sk-abc" (some "a fox")] = 3
    ∧ (PayPalHttpClient.execute unavailableProviders.paypal).1 = .error "503 Service Unavailable"
    ∧ (postPaypal "secret" (calmWorld.facing unavailableProviders) registeredDb "u1"
        (some "10.00")).calls = [.paypal "client-1" "pp-secret" (some "10.00")]
    ∧ (postPaypal "secret" (calmWorld.facing unavailableProviders) registeredDb "u1"
        (some "10.00")).db = registeredDb
    ∧ (postPaypal "secret" (calmWorld.facing unavailableProviders) registeredDb "u1"
        (some "10.00")).res = ⟨500, .error "503 Service Unavailable"⟩
    ∧ requestsSent unavailableProviders [.paypal "client-1" "pp-secret" (some "10.00")] = 1 :=
  have himg : (postImage "secret" (calmWorld.facing unavailableProviders) registeredDb "u1"
      (some "a fox")).calls = [.image "sk-abc" (some "a fox")] := by
    rw [postImage_providerError "secret" (calmWorld.facing unavailableProviders) registeredDb
      "u1" (some "a fox") _ "sk-abc" "503 Service Unavailable" rfl registeredDb_findOne
      (decrypt_encrypt _ _ _ _) rfl]
  have hpp : (postPaypal "secret" (calmWorld.facing unavailableProviders) registeredDb "u1"
      (some "10.00")).calls = [.paypal "client-1" "pp-secret" (some "10.00")] := by
    rw [postPaypal_providerError "secret" (calmWorld.facing unavailableProviders) registeredDb
      "u1" (some "10.00") _ "client-1" "pp-secret" "503 Service Unavailable" rfl
      registeredDb_findOne (decrypt_encrypt _ _ _ _) (decrypt_encrypt _ _ _ _) rfl]
  have h := provider_failure_leaves_no_record "secret" calmWorld registeredDb "u1"
    (some "a fox") (some "10.00") unavailableProviders "503 Service Unavailable"
  have hi := h.2.1 rfl
  have hp := h.2.2 rfl
  ⟨rfl, himg, hi.1, (hi.2.2.2.1 (by rw [himg]; simp)).1, rfl,
    rfl, hpp, hp.1, (hp.2.2.2.1 (by rw [hpp]; simp)).1, rfl⟩

/-- C9, as stated, fails: when the database refuses the connection the case listing answers
with the message of the thrown exception, and when a stored slot does not decrypt to text the
chat handler answers with the message of the error the cipher library threw. -/
theorem exception_message_is_returned :
    getCases databaseDownWorld registeredDb "u1"
      = { res := ⟨500, .error "connect ECONNREFUSED 127.0.0.1:27017"⟩, db := registeredDb,
          calls := [] }
    ∧ postChat "secret" calmWorld damagedDb "u1" (some "hello")
      = { res := ⟨500, .error "Malformed UTF-8 data"⟩, db := damagedDb, calls := [] } := by
  refine ⟨rfl, ?_⟩
  exact postChat_decryptError "secret" calmWorld damagedDb "u1" (some "hello")
    (KeySchema.mk "u1" "U2FsdGVkX18BAgMEBQYHCLjCSnBV/IINVnATFotOc1k="
      "U2FsdGVkX18BAgMEBQYHCLjCSnBV/IINVnATFotOc1k="
      "U2FsdGVkX18BAgMEBQYHCLjCSnBV/IINVnATFotOc1k=") "Malformed UTF-8 data" rfl rfl
    decrypt_not_utf8

/-- C9, amended. A request that fails because a database operation (the listing query, the
upsert, the lookup, the creation of the case record) or a decryption throws is answered 500 with
the body `{ error: m }`, where `m` is the message of the thrown exception, unchanged; the
failures are not told apart by kind. -/
theorem failure_response_carries_exception_message (SECRET_KEY : String) (w : World) (db : Db)
    (userId : String) (openaiKey paypalClientId paypalSecret prompt amount : Option String)
    (m : String) :
    (w.caseFind = some m → (getCases w db userId).res = ⟨500, .error m⟩)
    ∧ (w.keyFindOneAndUpdate = some m →
        (postKeys SECRET_KEY w db userId openaiKey paypalClientId paypalSecret).res
          = ⟨500, .error m⟩)
    ∧ (w.keyFindOneAndUpdate = none → w.caseCreate = some m →
        (postKeys SECRET_KEY w db userId openaiKey paypalClientId paypalSecret).res
          = ⟨500, .error m⟩)
    ∧ (w.keyFindOne = some m →
        (postChat SECRET_KEY w db userId prompt).res = ⟨500, .error m⟩
        ∧ (postImage SECRET_KEY w db userId prompt).res = ⟨500, .error m⟩
        ∧ (postPaypal SECRET_KEY w db userId amount).res = ⟨500, .error m⟩)
    ∧ (∀ keyData, w.keyFindOne = none → Key.findOne db userId = some keyData →
        (decrypt SECRET_KEY w.rnd1 keyData.openaiKey = .error m →
          (postChat SECRET_KEY w db userId prompt).res = ⟨500, .error m⟩
          ∧ (postImage SECRET_KEY w db userId prompt).res = ⟨500, .error m⟩)
        ∧ (decrypt SECRET_KEY w.rnd1 keyData.paypalClientId = .error m →
          (postPaypal SECRET_KEY w db userId amount).res = ⟨500, .error m⟩)
        ∧ (∀ clientId, decrypt SECRET_KEY w.rnd1 keyData.paypalClientId = .ok clientId →
          decrypt SECRET_KEY w.rnd2 keyData.paypalSecret = .error m →
          (postPaypal SECRET_KEY w db userId amount).res = ⟨500, .error m⟩))
    ∧ (∀ keyData, w.keyFindOne = none → Key.findOne db userId = some keyData →
        w.caseCreate = some m →
        (∀ apiKey content, decrypt SECRET_KEY w.rnd1 keyData.openaiKey = .ok apiKey →
          w.chatCompletion = .ok content →
          (postChat SECRET_KEY w db userId prompt).res = ⟨500, .error m⟩)
        ∧ (∀ apiKey url, decrypt SECRET_KEY w.rnd1 keyData.openaiKey = .ok apiKey →
          w.imageGenerate = .ok url →
          (postImage SECRET_KEY w db userId prompt).res = ⟨500, .error m⟩)
        ∧ (∀ clientId clientSecret id,
          decrypt SECRET_KEY w.rnd1 keyData.paypalClientId = .ok clientId →
          decrypt SECRET_KEY w.rnd2 keyData.paypalSecret = .ok clientSecret →
          w.paypalExecute = .ok id →
          (postPaypal SECRET_KEY w db userId amount).res = ⟨500, .error m⟩)) := by
  refine ⟨?_, ?_, ?_, ?_, ?_, ?_⟩
  · intro h; simp only [getCases, h]
  · intro h; simp only [postKeys, h]
  · intro h1 h2; simp only [postKeys, h1, h2]
  · intro h
    simp only [postChat, postImage, postPaypal, h, and_self]
  · intro keyData h1 h2
    refine ⟨?_, ?_, ?_⟩
    · intro h3
      rw [postChat_decryptError SECRET_KEY w db userId prompt keyData m h1 h2 h3,
        postImage_decryptError SECRET_KEY w db userId prompt keyData m h1 h2 h3]
      exact ⟨rfl, rfl⟩
    · intro h3
      rw [postPaypal_decryptError SECRET_KEY w db userId amount keyData m h1 h2 (Or.inl h3)]
    · intro clientId h3 h4
      rw [postPaypal_decryptError SECRET_KEY w db userId amount keyData m h1 h2
        (Or.inr ⟨clientId, h3, h4⟩)]
  · intro keyData h1 h2 h5
    refine ⟨?_, ?_, ?_⟩
    · intro apiKey content h3 h4
      rw [postChat_createError SECRET_KEY w db userId prompt keyData apiKey m content h1 h2 h3
        h4 h5]
    · intro apiKey url h3 h4
      rw [postImage_createError SECRET_KEY w db userId prompt keyData apiKey m url h1 h2 h3
        h4 h5]
    · intro clientId clientSecret id h3 h3b h4
      rw [postPaypal_createError SECRET_KEY w db userId amount keyData clientId clientSecret m id
        h1 h2 h3 h3b h4 h5]

/-- An instance: the database refuses the connection while the bundle is looked up. -/
theorem failure_response_carries_exception_message_witness :
    databaseDownWorld.keyFindOne = some "connect ECONNREFUSED 127.0.0.1:27017"
    ∧ (postChat "secret" databaseDownWorld registeredDb "u1" (some "hello")).res
        = ⟨500, .error "connect ECONNREFUSED 127.0.0.1:27017"⟩
    ∧ (postImage "secret" databaseDownWorld registeredDb "u1" (some "hello")).res
        = ⟨500, .error "connect ECONNREFUSED 127.0.0.1:27017"⟩
    ∧ (postPaypal "secret" databaseDownWorld registeredDb "u1" (some "10.00")).res
        = ⟨500, .error "connect ECONNREFUSED 127.0.0.1:27017"⟩ :=
  ⟨rfl, (failure_response_carries_exception_message "secret" databaseDownWorld registeredDb "u1"
    none none none (some "hello") (some "10.00") "connect ECONNREFUSED 127.0.0.1:27017").2.2.2.1
      rfl⟩

/-- C10. The ledger is append-only under every request: the records present before are, in the
same positions and unchanged, an initial segment of the ledger after the request, and at most
one record is added. -/
theorem ledger_is_append_only (SECRET_KEY : String) (w : World) (db : Db) (req : Request) :
    db.cases <+: (handle SECRET_KEY w db req).db.cases
    ∧ (handle SECRET_KEY w db req).db.cases.length ≤ db.cases.length + 1
    ∧ ∀ (i : Nat) (c : CaseSchema), db.cases[i]? = some c →
        (handle SECRET_KEY w db req).db.cases[i]? = some c := by
  rcases handle_cases SECRET_KEY w db req with h | ⟨c, h⟩
  · rw [h]
    exact ⟨List.prefix_refl _, Nat.le_succ _, fun _ _ hc => hc⟩
  · rw [h]
    refine ⟨List.prefix_append _ _, by simp, ?_⟩
    intro i c2 hc
    have hi : i < db.cases.length := (List.getElem?_eq_some_iff.1 hc).1
    rw [List.getElem?_append_left hi]
    exact hc

